import Mathlib

/-!
Verification development for the SentinelX air-defense simulator
(source: Defince.py).  The simulation core is shallowly embedded:

* Python floats are modelled as real numbers (exact arithmetic);
* the mutable list of threats shared between the defense controller and
  the interceptors is threaded explicitly as a `List Threat` store;
* an interceptor's weak reference to its target threat is modelled as an
  index into that store (the design note in the spec itself suggests this
  representation); object identity of distinct candidate threats is
  likewise modelled by their store index;
* the GUI / rendering / threading layers are out of scope (per spec §1);
  only the state mutations they perform on the core (e.g. `manual_intercept`)
  are modelled.
-/

noncomputable section

/-- Model of the `Vector3D` value class: three double-precision components. -/
structure Vector3D where
  x : ℝ
  y : ℝ
  z : ℝ
deriving DecidableEq

namespace Vector3D

/-- Source `__add__`. -/
def add (v w : Vector3D) : Vector3D := ⟨v.x + w.x, v.y + w.y, v.z + w.z⟩

/-- Source `__sub__`. -/
def sub (v w : Vector3D) : Vector3D := ⟨v.x - w.x, v.y - w.y, v.z - w.z⟩

/-- Source `__mul__` (vector times scalar). -/
def mul (v : Vector3D) (s : ℝ) : Vector3D := ⟨v.x * s, v.y * s, v.z * s⟩

/-- Source `__truediv__`: `Vector3D(x/s, y/s, z/s) if scalar else Vector3D(x, y, z)`.
A zero scalar (falsy in Python) yields an unchanged copy of the vector. -/
def div (v : Vector3D) (s : ℝ) : Vector3D :=
  if s ≠ 0 then ⟨v.x / s, v.y / s, v.z / s⟩ else ⟨v.x, v.y, v.z⟩

/-- Source `magnitude`: `sqrt(x**2 + y**2 + z**2)`. -/
def magnitude (v : Vector3D) : ℝ := Real.sqrt (v.x ^ 2 + v.y ^ 2 + v.z ^ 2)

/-- Source `normalize`: componentwise division by the magnitude, and the zero
vector (falsy magnitude) normalizes to the zero vector. -/
def normalize (v : Vector3D) : Vector3D :=
  let mag := v.magnitude
  if mag ≠ 0 then ⟨v.x / mag, v.y / mag, v.z / mag⟩ else ⟨0, 0, 0⟩

/-- Source `dot`. -/
def dot (v w : Vector3D) : ℝ := v.x * w.x + v.y * w.y + v.z * w.z

/-- The zero vector, `Vector3D(0.0, 0.0, 0.0)`. -/
def zero : Vector3D := ⟨0, 0, 0⟩

end Vector3D

/-- The local `a = v.dot(v) - s*s` of `_estimate_intercept_time`
(`v = threat.velocity`, `s = interceptor_speed`). -/
def quadA (s : ℝ) (tvel : Vector3D) : ℝ := tvel.dot tvel - s * s

/-- The local `b = 2 * r.dot(v)` of `_estimate_intercept_time`
(`r = threat.position - defense.position`). -/
def quadB (p tpos tvel : Vector3D) : ℝ := 2 * (tpos.sub p).dot tvel

/-- The local `c = r.dot(r)` of `_estimate_intercept_time`. -/
def quadC (p tpos : Vector3D) : ℝ := (tpos.sub p).dot (tpos.sub p)

/-- The local `disc = b*b - 4*a*c` of `_estimate_intercept_time`. -/
def quadDisc (p : Vector3D) (s : ℝ) (tpos tvel : Vector3D) : ℝ :=
  quadB p tpos tvel * quadB p tpos tvel - 4 * quadA s tvel * quadC p tpos

/-- Model of `DefenseSystem._estimate_intercept_time`, the pure intercept-time
query.  `p` is the defense position and `s` the interceptor speed (re-read from
the controller on each call); the threat contributes its position `tpos` and
velocity `tvel`.  The final branch is the source's
`times = [t for t in (t1, t2) if t > 0]; return min(times) if times else None`. -/
def estimate_intercept_time (p : Vector3D) (s : ℝ) (tpos tvel : Vector3D) :
    Option ℝ :=
  let a := quadA s tvel
  let b := quadB p tpos tvel
  let c := quadC p tpos
  let disc := quadDisc p s tpos tvel
  if disc < 0 then none
  else if |a| < 1e-6 then
    if |b| < 1e-6 then none
    else
      let t := -c / b
      if t > 0 then some t else none
  else
    let sqrt_disc := Real.sqrt disc
    let t1 := (-b + sqrt_disc) / (2 * a)
    let t2 := (-b - sqrt_disc) / (2 * a)
    (List.filter (fun t => decide (t > 0)) [t1, t2]).min?

/-! ## The capacity-constrained assignment search
(`DefenseSystem._assign_interceptors_csp`).

The Python assignment is a dict keyed by the (pairwise distinct) threat
objects of the candidate list, inserted in variable order `0, 1, 2, ...`;
it is modelled positionally as the list of decisions for the variables
assigned so far (`true` = the source's string value `'target'`, `false` =
`'not_target'`). -/

/-- Source `is_consistent`: the number of variables assigned `'target'` must
not exceed `available_slots` (a Python int, possibly negative). -/
def is_consistent (available_slots : Int) (asn : List Bool) : Bool :=
  decide ((asn.count true : Int) ≤ available_slots)

/-- Source `backtrack(var_index)`: depth-first search that first tries
`'target'` and then `'not_target'` for the current variable, pruning
assignments rejected by `is_consistent`; `rem` is the number of variables not
yet assigned (`len(threats) - var_index`). -/
def backtrack (available_slots : Int) : Nat → List Bool → Option (List Bool)
  | 0, asn => some asn
  | rem + 1, asn =>
    match (if is_consistent available_slots (asn ++ [true]) then
            backtrack available_slots rem (asn ++ [true]) else none) with
    | some r => some r
    | none =>
      if is_consistent available_slots (asn ++ [false]) then
        backtrack available_slots rem (asn ++ [false])
      else none

/-- Source `_assign_interceptors_csp`: run the backtracking search over all
candidate threats, then keep, in input order, those threats whose assigned
value is `'target'`. -/
def assign_interceptors_csp {α : Type} (threats : List α)
    (available_slots : Int) : List α :=
  match backtrack available_slots threats.length [] with
  | some asn =>
    (threats.zip asn).filterMap (fun p => if p.2 then some p.1 else none)
  | none => []

/-- The greedy extension the search actually commits to: assign `'target'`
while the running count stays within the capacity, `'not_target'` afterwards.
Used only to state and prove the characterization of `backtrack`. -/
def greedyExt (available_slots cnt : Int) : Nat → List Bool
  | 0 => []
  | rem + 1 =>
    if cnt + 1 ≤ available_slots then
      true :: greedyExt available_slots (cnt + 1) rem
    else
      false :: greedyExt available_slots cnt rem

/-! ## Entities: threats and interceptors

A threat's flags are mutated both by its own motion model and by the
controller; interceptors hold a weak reference to their target threat.  The
shared mutable collection of threat objects is modelled as an explicit store
(`List Threat`) threaded through every operation, and the weak reference as
an index into that store. -/

/-- Shared trail bookkeeping: `trail.append(position); if len(trail) > 200:
trail.pop(0)` (append, then evict the oldest entry past 200). -/
def pushTrail (trail : List Vector3D) (pos : Vector3D) : List Vector3D :=
  let tr := trail ++ [pos]
  if tr.length > 200 then tr.drop 1 else tr

/-- Model of the `Threat` entity state (fields in `__slots__` order). -/
structure Threat where
  position : Vector3D
  velocity : Vector3D
  name : String
  destroyed : Bool
  trail : List Vector3D
  targeted : Bool
  hit_ground : Bool

/-- Source `Threat.update`: no-op once destroyed or on the ground, else record
the pre-update position in the trail and integrate position by explicit
Euler. -/
def Threat.update (dt : ℝ) (t : Threat) : Threat :=
  if t.destroyed ∨ t.hit_ground then t
  else
    { t with
        trail := pushTrail t.trail t.position,
        position := t.position.add (t.velocity.mul dt) }

/-- The constant `self.gravity = Vector3D(0.0, 0.0, -9.8)` set by
`Missile.__init__` and never changed. -/
def missile_gravity : Vector3D := ⟨0, 0, -9.8⟩

/-- Source `Missile.update`: accumulate gravity into the velocity, then run
the base motion update. -/
def Missile.update (dt : ℝ) (t : Threat) : Threat :=
  if t.destroyed ∨ t.hit_ground then t
  else Threat.update dt { t with velocity := t.velocity.add (missile_gravity.mul dt) }

/-- The constant `self.evasion_strength = 100.0` set by `Jet.__init__` and
never changed. -/
def jet_evasion_strength : ℝ := 100

/-- Source `Jet.update`.  `draw` is the random perturbation
`Vector3D(uniform(-1,1), uniform(-1,1), uniform(-0.3,0.3))` drawn this tick,
passed in explicitly so the randomized model is a deterministic function of
the draw.  The perturbation is normalized, scaled by `evasion_strength * dt`
and added to the velocity; the speed is then clamped by rescaling through
`normalize` whenever it leaves `[200, 800]`. -/
def Jet.update (draw : Vector3D) (dt : ℝ) (t : Threat) : Threat :=
  if t.destroyed ∨ t.hit_ground then t
  else
    let ev := draw.normalize.mul (jet_evasion_strength * dt)
    let v1 := t.velocity.add ev
    let speed := v1.magnitude
    let v2 :=
      if speed > 800 then v1.normalize.mul 800
      else if speed < 200 then v1.normalize.mul 200
      else v1
    Threat.update dt { t with velocity := v2 }

/-- Model of the `Interceptor` entity state; `target` is the weak reference
to the targeted threat, as an index into the threat store. -/
structure Interceptor where
  position : Vector3D
  velocity : Vector3D
  name : String
  destroyed : Bool
  trail : List Vector3D
  target : Nat
  lifetime : ℝ
  elapsed : ℝ

/-- Source `Interceptor.update`: a destroyed interceptor is inert; otherwise
`elapsed` accumulates `dt` and, past the lifetime, the interceptor dies
before moving (releasing its live target's `targeted` flag); else it records
the trail and integrates position.  Returns the updated interceptor together
with the (possibly mutated) threat store. -/
def Interceptor.update (dt : ℝ) (i : Interceptor) (store : List Threat) :
    Interceptor × List Threat :=
  if i.destroyed then (i, store)
  else
    let elapsed := i.elapsed + dt
    if elapsed > i.lifetime then
      let store' :=
        match store[i.target]? with
        | some t =>
          if ¬t.destroyed ∧ ¬t.hit_ground then
            store.set i.target { t with targeted := false }
          else store
        | none => store
      ({ i with elapsed := elapsed, destroyed := true }, store')
    else
      ({ i with
          elapsed := elapsed,
          trail := pushTrail i.trail i.position,
          position := i.position.add (i.velocity.mul dt) }, store)

/-! ## The defense controller -/

/-- Model of the `DefenseSystem` state.  The external `alert_callback` sink
is not modelled: it is invoked exactly when a message is appended to
`destruction_messages`, which the model does record. -/
structure DefenseSystem where
  position : Vector3D
  radar_range : ℝ
  interceptor_speed : ℝ
  max_interceptors : Nat
  interceptors : List Interceptor
  destruction_messages : List String
  total_launches : Nat
  total_intercepted : Nat
  total_missed : Nat

/-- The detection scan of `detect_and_launch`: every threat that is not
destroyed, not already targeted, not on the ground, within radar range, and
whose intercept-time estimate is truthy and positive, paired with that
estimate.  Threats are identified by their store index (the Python dict and
`==` comparisons are on the distinct threat objects). -/
def detect_candidates (ds : DefenseSystem) (threats : List Threat) :
    List (Nat × ℝ) :=
  threats.enum.filterMap (fun p =>
    if p.2.destroyed ∨ p.2.targeted ∨ p.2.hit_ground then none
    else if (p.2.position.sub ds.position).magnitude ≤ ds.radar_range then
      match estimate_intercept_time ds.position ds.interceptor_speed
          p.2.position p.2.velocity with
      | some t => if t > 0 then some (p.1, t) else none
      | none => none
    else none)

/-- Source `DefenseSystem.launch_interceptor`: pure construction of an
interceptor aimed at the predicted intercept point (not registered).  `j` is
the store index of `th`, recorded as the weak target reference. -/
def launch_interceptor (ds : DefenseSystem) (j : Nat) (th : Threat)
    (t_est : ℝ) : Interceptor :=
  let intercept_point := th.position.add (th.velocity.mul t_est)
  let direction := (intercept_point.sub ds.position).normalize
  { position := ⟨ds.position.x, ds.position.y, ds.position.z⟩,
    velocity := direction.mul ds.interceptor_speed,
    name := "I" ++ toString (ds.interceptors.length + 1),
    destroyed := false,
    trail := [],
    target := j,
    lifetime := t_est * 2 + 1,
    elapsed := 0 }

/-- The launch loop body of `detect_and_launch`: for a selected threat index,
look its estimate up again in the (sorted-in-place) candidate list — the
source's `next(te for tr, te in detectable if tr == threat)` — then append
the new interceptor, mark the threat targeted, bump the launch counter and
log.  The fallthrough case is unreachable for selected candidates (the
source's `next` would raise there). -/
def launch_selected (detectable : List (Nat × ℝ))
    (acc : DefenseSystem × List Threat) (j : Nat) :
    DefenseSystem × List Threat :=
  match detectable.find? (fun p => p.1 == j), acc.2[j]? with
  | some p, some th =>
    let interceptor := launch_interceptor acc.1 j th p.2
    ({ acc.1 with
        interceptors := acc.1.interceptors ++ [interceptor],
        total_launches := acc.1.total_launches + 1,
        destruction_messages := acc.1.destruction_messages ++
          ["Interceptor " ++ interceptor.name ++ " launched for " ++ th.name] },
      acc.2.set j { th with targeted := true })
  | _, _ => acc

/-- Source `DefenseSystem.detect_and_launch`: scan, early-return when nothing
is detectable, stable-sort by ascending intercept time, run the assignment
search against the remaining capacity, then launch at each selected threat
in order. -/
def detect_and_launch (ds : DefenseSystem) (threats : List Threat) :
    DefenseSystem × List Threat :=
  let detectable := detect_candidates ds threats
  if detectable.isEmpty then (ds, threats)
  else
    let sorted := detectable.mergeSort (fun a b => decide (a.2 ≤ b.2))
    let threat_list := sorted.map (fun p => p.1)
    let available_slots : Int :=
      (ds.max_interceptors : Int) - ds.interceptors.length
    let selected := assign_interceptors_csp threat_list available_slots
    selected.foldl (launch_selected sorted) (ds, threats)

/-- The sorted candidate list built inside `detect_and_launch` (the source's
in-place `detectable.sort(key=lambda x: x[1])`), named so the launch loop can
be reasoned about in isolation. -/
def dalSorted (ds : DefenseSystem) (threats : List Threat) : List (Nat × ℝ) :=
  (detect_candidates ds threats).mergeSort (fun a b => decide (a.2 ≤ b.2))

/-- The threat indices selected by the assignment search inside
`detect_and_launch`, named for the same reason. -/
def dalSelected (ds : DefenseSystem) (threats : List Threat) : List Nat :=
  assign_interceptors_csp ((dalSorted ds threats).map (fun p => p.1))
    ((ds.max_interceptors : Int) - ds.interceptors.length)

/-- The inner collision loop of `DefenseSystem.update` for one threat: every
non-destroyed interceptor within the 200-unit kill radius of the threat's
position is destroyed and counted, and the threat is marked destroyed at the
first such hit.  The threat's own flag is NOT re-checked inside this loop
(faithful to the source), so one threat can consume several interceptors. -/
def collideInner (th : Threat) : List Interceptor →
    Threat × List Interceptor × Nat × List String
  | [] => (th, [], 0, [])
  | i :: is =>
    if i.destroyed then
      let r := collideInner th is
      (r.1, i :: r.2.1, r.2.2.1, r.2.2.2)
    else if (th.position.sub i.position).magnitude < 200 then
      let r := collideInner { th with destroyed := true } is
      (r.1, { i with destroyed := true } :: r.2.1, r.2.2.1 + 1,
        (th.name ++ " intercepted by " ++ i.name) :: r.2.2.2)
    else
      let r := collideInner th is
      (r.1, i :: r.2.1, r.2.2.1, r.2.2.2)

/-- The outer collision loop of `DefenseSystem.update`: threats already
destroyed or on the ground are skipped; each remaining threat is resolved
against the current interceptor list in order. -/
def collideOuter : List Threat → List Interceptor →
    List Threat × List Interceptor × Nat × List String
  | [], itcs => ([], itcs, 0, [])
  | th :: ths, itcs =>
    if th.destroyed ∨ th.hit_ground then
      let r := collideOuter ths itcs
      (th :: r.1, r.2.1, r.2.2.1, r.2.2.2)
    else
      let c := collideInner th itcs
      let r := collideOuter ths c.2.1
      (c.1 :: r.1, r.2.1, c.2.2.1 + r.2.2.1, c.2.2.2 ++ r.2.2.2)

/-- The first phase of `DefenseSystem.update`: advance every interceptor (in
list order) by its motion model; an expiring interceptor may release its
target's `targeted` flag in the shared store. -/
def stepAll (dt : ℝ) : List Interceptor → List Threat →
    List Interceptor × List Threat
  | [], store => ([], store)
  | i :: is, store =>
    let s := Interceptor.update dt i store
    let r := stepAll dt is s.2
    (s.1 :: r.1, r.2)

/-- Source `DefenseSystem.update`: advance interceptors, resolve collisions
(kill radius 200), accumulate the intercept counter and messages, and drop
destroyed interceptors from the active collection. -/
def DefenseSystem.update (dt : ℝ) (ds : DefenseSystem) (threats : List Threat) :
    DefenseSystem × List Threat :=
  let s := stepAll dt ds.interceptors threats
  let c := collideOuter s.2 s.1
  ({ ds with
      interceptors := c.2.1.filter (fun i => !i.destroyed),
      total_intercepted := ds.total_intercepted + c.2.2.1,
      destruction_messages := ds.destruction_messages ++ c.2.2.2 },
    c.1)

/-- Source `DefenseSystem.record_misses`: every live threat whose altitude has
fallen to or below zero is marked `hit_ground`, loses its `targeted` flag,
and increments the miss counter. -/
def record_misses (ds : DefenseSystem) : List Threat →
    DefenseSystem × List Threat
  | [] => (ds, [])
  | th :: ths =>
    if ¬th.destroyed ∧ ¬th.hit_ground ∧ th.position.z ≤ 0 then
      let r := record_misses
        { ds with
            total_missed := ds.total_missed + 1,
            destruction_messages := ds.destruction_messages ++
              [th.name ++ " hit ground!"] } ths
      (r.1, { th with hit_ground := true, targeted := false } :: r.2)
    else
      let r := record_misses ds ths
      (r.1, th :: r.2)

/-! ## The manual-override path (`FinalAirDefenseApp.manual_intercept`) -/

/-- Outcome reported back to the operator by `manual_intercept` (message
boxes / alerts in the GUI). -/
inductive ManualOutcome
  | noSelection
  | invalid
  | cannotIntercept
  | launched
deriving DecidableEq

/-- Source `FinalAirDefenseApp.manual_intercept`, state-mutation part: given
the selected index, reject a neutralized threat (`invalid`), reject
infeasible geometry (`cannotIntercept`, when the estimate is `None` or
non-positive), and otherwise launch exactly like an automatic launch.
An out-of-range index falls through with no action. -/
def manual_intercept (ds : DefenseSystem) (threats : List Threat) (idx : Nat) :
    DefenseSystem × List Threat × ManualOutcome :=
  match threats[idx]? with
  | none => (ds, threats, ManualOutcome.noSelection)
  | some th =>
    if th.destroyed ∨ th.hit_ground then (ds, threats, ManualOutcome.invalid)
    else
      match estimate_intercept_time ds.position ds.interceptor_speed
          th.position th.velocity with
      | none => (ds, threats, ManualOutcome.cannotIntercept)
      | some t_est =>
        if t_est ≤ 0 then (ds, threats, ManualOutcome.cannotIntercept)
        else
          let interceptor := launch_interceptor ds idx th t_est
          ({ ds with
              interceptors := ds.interceptors ++ [interceptor],
              total_launches := ds.total_launches + 1,
              destruction_messages := ds.destruction_messages ++
                ["Manual interceptor " ++ interceptor.name ++
                  " launched for " ++ th.name] },
            threats.set idx { th with targeted := true },
            ManualOutcome.launched)

/-! ## Specification-level predicates used by the theorems below -/

/-- A threat that is neither destroyed nor on the ground — the complement of
the skip condition `threat.destroyed or threat.hit_ground` used by the
controller loops. -/
def liveThreat (t : Threat) : Prop := ¬(t.destroyed ∨ t.hit_ground)

/-- The per-pair proximity test of the collision loop: the interceptor is not
destroyed and lies within the fixed 200-unit kill radius of the threat's
position. -/
def hits (t : Threat) (i : Interceptor) : Prop :=
  ¬i.destroyed ∧ (t.position.sub i.position).magnitude < 200

/-- One-way flag monotonicity between two snapshots of the same threat:
`destroyed` and `hit_ground` never revert from true to false. -/
def threatFlagsMono (t t' : Threat) : Prop :=
  (t.destroyed = true → t'.destroyed = true) ∧
  (t.hit_ground = true → t'.hit_ground = true)

/-- Index-wise flag monotonicity across a whole threat store. -/
def storeFlagsMono (ths ths' : List Threat) : Prop :=
  ∀ (j : Nat) (t t' : Threat), ths[j]? = some t → ths'[j]? = some t' →
    threatFlagsMono t t'

/-- The cumulative counters of the controller never decrease. -/
def countersMono (ds ds' : DefenseSystem) : Prop :=
  ds.total_launches ≤ ds'.total_launches ∧
  ds.total_intercepted ≤ ds'.total_intercepted ∧
  ds.total_missed ≤ ds'.total_missed

/-- The interceptor component of one `Interceptor.update` call, which does
not depend on the threat store. -/
def stepI (dt : ℝ) (i : Interceptor) : Interceptor :=
  if i.destroyed then i
  else if i.elapsed + dt > i.lifetime then
    { i with elapsed := i.elapsed + dt, destroyed := true }
  else
    { i with
        elapsed := i.elapsed + dt,
        trail := pushTrail i.trail i.position,
        position := i.position.add (i.velocity.mul dt) }

/-- An interceptor of the active collection expires this tick: it is not yet
destroyed but its elapsed time will exceed its lifetime. -/
def expiring (dt : ℝ) (i : Interceptor) : Prop :=
  i.destroyed = false ∧ i.elapsed + dt > i.lifetime

/-- The bookkeeping invariant of the `targeted` flag: a live threat is
flagged `targeted` exactly when some non-destroyed interceptor of the active
collection holds it (by store index) as its weak target reference. -/
def targetedMatched (itcs : List Interceptor) (ths : List Threat) : Prop :=
  ∀ (j : Nat) (t : Threat), ths[j]? = some t → liveThreat t →
    (t.targeted = true ↔ ∃ i ∈ itcs, i.destroyed = false ∧ i.target = j)

/-- No two non-destroyed interceptors (at distinct positions of the active
collection) share a target. -/
def targetsInjective (itcs : List Interceptor) : Prop :=
  ∀ (k k' : Nat) (i i' : Interceptor), itcs[k]? = some i → itcs[k']? = some i' →
    i.destroyed = false → i'.destroyed = false → i.target = i'.target → k = k'

/-! ## Concrete fixtures for witnesses and counterexamples -/

/-- Fixture: an active interceptor at rest at the origin with 10 s of
lifetime remaining. -/
def exInterceptor : Interceptor := ⟨⟨0, 0, 0⟩, ⟨0, 0, 0⟩, "I1", false, [], 0, 10, 0⟩

/-- The fixture interceptor after one motion step of `dt = 1` (position
unchanged — zero velocity — trail recorded, `elapsed` now 1). -/
def exInterceptor' : Interceptor :=
  ⟨⟨0, 0, 0⟩, ⟨0, 0, 0⟩, "I1", false, [⟨0, 0, 0⟩], 0, 10, 1⟩

/-- Fixture: a live targeted threat at rest at distance 100 from the
origin. -/
def exThreat : Threat := ⟨⟨100, 0, 0⟩, ⟨0, 0, 0⟩, "M1", false, [], true, false⟩

/-- Fixture: a second live (untargeted) threat at the same position. -/
def exThreat2 : Threat := ⟨⟨100, 0, 0⟩, ⟨0, 0, 0⟩, "M2", false, [], false, false⟩

/-- Fixture: a controller owning `exInterceptor`, with one launch
recorded. -/
def exSystem : DefenseSystem :=
  ⟨Vector3D.zero, 30000, 10000, 30, [exInterceptor], [], 1, 0, 0⟩

/-- The advanced fixture interceptor after being consumed by a collision. -/
def exInterceptorDead : Interceptor :=
  ⟨⟨0, 0, 0⟩, ⟨0, 0, 0⟩, "I1", true, [⟨0, 0, 0⟩], 0, 10, 1⟩

/-- The first fixture threat after being destroyed by a collision. -/
def exThreatDead : Threat := ⟨⟨100, 0, 0⟩, ⟨0, 0, 0⟩, "M1", true, [], true, false⟩

/-- Fixture: a live targeted threat at altitude 100, 1000 units from the
interceptors below; targeted by TWO interceptors at once (a state reachable
through `manual_intercept`, which never checks `targeted`). -/
def c6Threat : Threat := ⟨⟨1000, 0, 100⟩, ⟨0, 0, 0⟩, "M1", false, [], true, false⟩

/-- Fixture: a first interceptor aimed at the threat (store index 0) whose
lifetime expires on the next tick. -/
def c6I1 : Interceptor := ⟨⟨0, 0, 300⟩, ⟨0, 0, 0⟩, "I1", false, [], 0, 1 / 2, 0⟩

/-- Fixture: a second interceptor aimed at the same threat with ample
lifetime, at rest 1000 units away from it. -/
def c6I2 : Interceptor := ⟨⟨0, 0, 100⟩, ⟨0, 0, 0⟩, "I2", false, [], 0, 10, 0⟩

/-- Fixture: a controller owning both interceptors, two launches recorded. -/
def c6System : DefenseSystem :=
  ⟨Vector3D.zero, 30000, 10000, 30, [c6I1, c6I2], [], 2, 0, 0⟩

/-- `c6I1` after its expiry step: destroyed before moving, `elapsed` now 1. -/
def c6I1' : Interceptor := ⟨⟨0, 0, 300⟩, ⟨0, 0, 0⟩, "I1", true, [], 0, 1 / 2, 1⟩

/-- `c6I2` after one motion step of `dt = 1`: zero velocity, so position kept,
trail recorded, `elapsed` now 1. -/
def c6I2' : Interceptor :=
  ⟨⟨0, 0, 100⟩, ⟨0, 0, 0⟩, "I2", false, [⟨0, 0, 100⟩], 0, 10, 1⟩

/-- `c6Threat` after the expiring `c6I1` releases its `targeted` flag. -/
def c6Threat' : Threat :=
  ⟨⟨1000, 0, 100⟩, ⟨0, 0, 0⟩, "M1", false, [], false, false⟩

/-! ## General lemmas about the vector model -/

theorem Vector3D.magnitude_nonneg (v : Vector3D) : 0 ≤ v.magnitude :=
  Real.sqrt_nonneg _

theorem Vector3D.magnitude_eq_zero_iff (v : Vector3D) :
    v.magnitude = 0 ↔ v = Vector3D.zero := by
  unfold magnitude zero
  rw [Real.sqrt_eq_zero (by positivity)]
  constructor
  · intro h
    have hx : v.x = 0 := by nlinarith [sq_nonneg v.x, sq_nonneg v.y, sq_nonneg v.z]
    have hy : v.y = 0 := by nlinarith [sq_nonneg v.x, sq_nonneg v.y, sq_nonneg v.z]
    have hz : v.z = 0 := by nlinarith [sq_nonneg v.x, sq_nonneg v.y, sq_nonneg v.z]
    cases v
    simp_all
  · rintro rfl
    norm_num

theorem Vector3D.magnitude_sq (v : Vector3D) :
    v.magnitude ^ 2 = v.x ^ 2 + v.y ^ 2 + v.z ^ 2 := by
  unfold magnitude
  rw [Real.sq_sqrt (by positivity)]

theorem Vector3D.magnitude_normalize (v : Vector3D) (hv : v ≠ Vector3D.zero) :
    v.normalize.magnitude = 1 := by
  have hm : v.magnitude ≠ 0 := fun h => hv ((magnitude_eq_zero_iff v).mp h)
  have hmpos : 0 < v.magnitude := lt_of_le_of_ne (magnitude_nonneg v) (Ne.symm hm)
  unfold normalize
  simp only [hm, ne_eq, not_false_iff, if_true]
  show Real.sqrt ((v.x / v.magnitude) ^ 2 + (v.y / v.magnitude) ^ 2 +
      (v.z / v.magnitude) ^ 2) = 1
  have h1 : (v.x / v.magnitude) ^ 2 + (v.y / v.magnitude) ^ 2 + (v.z / v.magnitude) ^ 2
      = (v.x ^ 2 + v.y ^ 2 + v.z ^ 2) / v.magnitude ^ 2 := by ring
  rw [h1, ← magnitude_sq, div_self (by positivity), Real.sqrt_one]

theorem Vector3D.magnitude_mul (v : Vector3D) (s : ℝ) :
    (v.mul s).magnitude = v.magnitude * |s| := by
  unfold mul magnitude
  have h1 : (v.x * s) ^ 2 + (v.y * s) ^ 2 + (v.z * s) ^ 2
      = (v.x ^ 2 + v.y ^ 2 + v.z ^ 2) * s ^ 2 := by ring
  rw [h1, Real.sqrt_mul (by positivity), Real.sqrt_sq_eq_abs]

/-! ## C1: characterization of the intercept-time computation -/

/-- C1.  For every threat geometry (relative position `r = tpos - p`, velocity
`tvel`) and interceptor speed `s`, with `a = v.dot v - s*s`, `b = 2*(r.dot v)`,
`c = r.dot r` and `disc = b*b - 4*a*c`: the computation returns `none` when
`disc < 0`; when `|a| < 1e-6` it returns `-c/b` provided `|b| ≥ 1e-6` and
`-c/b > 0`, else `none`; otherwise it returns the minimum strictly-positive
root of `a*t^2 + b*t + c = 0`, and `none` if neither root is positive. -/
theorem estimate_intercept_time_spec (p tpos tvel : Vector3D) (s : ℝ) :
    (quadDisc p s tpos tvel < 0 → estimate_intercept_time p s tpos tvel = none) ∧
    (0 ≤ quadDisc p s tpos tvel → |quadA s tvel| < 1e-6 →
      ((¬ |quadB p tpos tvel| < 1e-6 ∧ 0 < -quadC p tpos / quadB p tpos tvel) →
        estimate_intercept_time p s tpos tvel =
          some (-quadC p tpos / quadB p tpos tvel)) ∧
      ((|quadB p tpos tvel| < 1e-6 ∨ -quadC p tpos / quadB p tpos tvel ≤ 0) →
        estimate_intercept_time p s tpos tvel = none)) ∧
    (0 ≤ quadDisc p s tpos tvel → ¬ |quadA s tvel| < 1e-6 →
      (∀ t, estimate_intercept_time p s tpos tvel = some t →
        0 < t ∧
        quadA s tvel * t ^ 2 + quadB p tpos tvel * t + quadC p tpos = 0 ∧
        ∀ u, 0 < u →
          quadA s tvel * u ^ 2 + quadB p tpos tvel * u + quadC p tpos = 0 →
          t ≤ u) ∧
      (estimate_intercept_time p s tpos tvel = none →
        ∀ u, 0 < u →
          quadA s tvel * u ^ 2 + quadB p tpos tvel * u + quadC p tpos ≠ 0)) := by
  set a := quadA s tvel with hA
  set b := quadB p tpos tvel with hB
  set c := quadC p tpos with hC
  set disc := quadDisc p s tpos tvel with hD
  refine ⟨?_, ?_, ?_⟩
  · intro hlt
    unfold estimate_intercept_time
    rw [if_pos (by rw [← hA, ← hB, ← hC, ← hD] at *; exact hlt)]
  · intro hge ha
    unfold estimate_intercept_time
    rw [← hA, ← hB, ← hC, ← hD, if_neg (not_lt.mpr hge), if_pos ha]
    constructor
    · rintro ⟨hb, hpos⟩
      rw [if_neg hb, if_pos hpos]
    · rintro (hb | hnp)
      · rw [if_pos hb]
      · by_cases hb : |b| < 1e-6
        · rw [if_pos hb]
        · rw [if_neg hb, if_neg (not_lt.mpr hnp)]
  · intro hge ha
    have haz : a ≠ 0 := by
      intro h
      rw [h] at ha
      simp only [abs_zero] at ha
      exact ha (by norm_num)
    have hdsq : discrim a b c = Real.sqrt disc * Real.sqrt disc := by
      rw [discrim, Real.mul_self_sqrt hge, hD]
      unfold quadDisc
      rw [← hA, ← hB, ← hC]
      ring
    have hroot := fun x => quadratic_eq_zero_iff haz hdsq x
    set t1 := (-b + Real.sqrt disc) / (2 * a) with ht1def
    set t2 := (-b - Real.sqrt disc) / (2 * a) with ht2def
    have heval : estimate_intercept_time p s tpos tvel =
        (List.filter (fun t => decide (t > 0)) [t1, t2]).min? := by
      unfold estimate_intercept_time
      rw [← hA, ← hB, ← hC, ← hD, if_neg (not_lt.mpr hge), if_neg ha]
    have hroot' : ∀ x : ℝ, a * x ^ 2 + b * x + c = 0 ↔ x = t1 ∨ x = t2 := by
      intro x
      rw [← hroot x]
      constructor <;> intro h <;> [skip; skip] <;> nlinarith [h]
    rw [heval]
    by_cases h1 : t1 > 0 <;> by_cases h2 : t2 > 0
    · rw [List.filter_cons_of_pos (by simpa using h1),
        List.filter_cons_of_pos (by simpa using h2), List.filter_nil]
      constructor
      · intro t ht
        simp only [List.min?, List.foldl] at ht
        have htv : t = min t1 t2 := by
          injection ht with h; exact h.symm
        subst htv
        refine ⟨lt_min h1 h2, ?_, ?_⟩
        · rcases min_choice t1 t2 with h | h <;> rw [h] <;>
            [exact (hroot' t1).mpr (Or.inl rfl); exact (hroot' t2).mpr (Or.inr rfl)]
        · intro u hu hru
          rcases (hroot' u).mp hru with h | h <;> subst h
          · exact min_le_left _ _
          · exact min_le_right _ _
      · intro h
        simp [List.min?] at h
    · rw [List.filter_cons_of_pos (by simpa using h1),
        List.filter_cons_of_neg (by simpa using h2), List.filter_nil]
      constructor
      · intro t ht
        simp only [List.min?, List.foldl] at ht
        have htv : t = t1 := by injection ht with h; exact h.symm
        subst htv
        refine ⟨h1, (hroot' t1).mpr (Or.inl rfl), ?_⟩
        intro u hu hru
        rcases (hroot' u).mp hru with h | h <;> subst h
        · exact le_refl _
        · exact absurd hu h2
      · intro h
        simp [List.min?] at h
    · rw [List.filter_cons_of_neg (by simpa using h1),
        List.filter_cons_of_pos (by simpa using h2), List.filter_nil]
      constructor
      · intro t ht
        simp only [List.min?, List.foldl] at ht
        have htv : t = t2 := by injection ht with h; exact h.symm
        subst htv
        refine ⟨h2, (hroot' t2).mpr (Or.inr rfl), ?_⟩
        intro u hu hru
        rcases (hroot' u).mp hru with h | h <;> subst h
        · exact absurd hu h1
        · exact le_refl _
      · intro h
        simp [List.min?] at h
    · rw [List.filter_cons_of_neg (by simpa using h1),
        List.filter_cons_of_neg (by simpa using h2), List.filter_nil]
      refine ⟨fun t ht => by simp [List.min?] at ht, fun _ u hu hru => ?_⟩
      rcases (hroot' u).mp hru with h | h <;> subst h
      · exact absurd hu h1
      · exact absurd hu h2

theorem quadA_example : quadA 1 ⟨0, 0, 0⟩ = -1 := by
  norm_num [quadA, Vector3D.dot]

theorem quadDisc_example :
    quadDisc Vector3D.zero 1 ⟨100, 0, 0⟩ ⟨0, 0, 0⟩ = 40000 := by
  have hB : quadB Vector3D.zero ⟨100, 0, 0⟩ ⟨0, 0, 0⟩ = 0 := by
    norm_num [quadB, Vector3D.dot, Vector3D.sub, Vector3D.zero]
  have hC : quadC Vector3D.zero ⟨100, 0, 0⟩ = 10000 := by
    norm_num [quadC, Vector3D.dot, Vector3D.sub, Vector3D.zero]
  rw [quadDisc, quadA_example, hB, hC]
  norm_num

/-- A concrete engagement (threat at rest at distance 100, interceptor
speed 1) whose intercept time evaluates to 100; shared by several concrete
instantiations below. -/
theorem estimate_intercept_time_example :
    estimate_intercept_time Vector3D.zero 1 ⟨100, 0, 0⟩ ⟨0, 0, 0⟩ =
      some 100 := by
  have hB : quadB Vector3D.zero ⟨100, 0, 0⟩ ⟨0, 0, 0⟩ = 0 := by
    norm_num [quadB, Vector3D.dot, Vector3D.sub, Vector3D.zero]
  have hC : quadC Vector3D.zero ⟨100, 0, 0⟩ = 10000 := by
    norm_num [quadC, Vector3D.dot, Vector3D.sub, Vector3D.zero]
  have hsqrt : Real.sqrt 40000 = 200 := by
    rw [show (40000 : ℝ) = 200 ^ 2 by norm_num, Real.sqrt_sq (by norm_num)]
  unfold estimate_intercept_time
  rw [quadA_example, hB, hC, quadDisc_example]
  norm_num [hsqrt, abs_neg, abs_one, List.filter, List.min?]

/-- Witness for C1: on the concrete engagement above, the quadratic branch
returns the minimal positive root 100. -/
theorem estimate_intercept_time_spec_witness :
    estimate_intercept_time Vector3D.zero 1 ⟨100, 0, 0⟩ ⟨0, 0, 0⟩ = some 100 ∧
    (0 : ℝ) < 100 := by
  have habs : ¬ |quadA 1 (⟨0, 0, 0⟩ : Vector3D)| < 1e-6 := by
    rw [quadA_example, abs_neg, abs_one]; norm_num
  exact ⟨estimate_intercept_time_example,
    (((estimate_intercept_time_spec Vector3D.zero ⟨100, 0, 0⟩ ⟨0, 0, 0⟩ 1).2.2
      (by rw [quadDisc_example]; norm_num) habs).1 100
      estimate_intercept_time_example).1⟩

/-! ## C4: division by a zero scalar and normalization of the zero vector -/

/-- C4 counterexample: dividing the vector `(1, 2, 3)` by the scalar `0` does
NOT return the zero vector — the source's `__truediv__` returns an unchanged
copy `Vector3D(self.x, self.y, self.z)` when the scalar is falsy. -/
theorem truediv_zero_not_zero_vector :
    Vector3D.div ⟨1, 2, 3⟩ 0 ≠ Vector3D.zero := by
  unfold Vector3D.div Vector3D.zero
  norm_num

/-- C4 amended: dividing any vector by the scalar `0` returns the vector
unchanged (not an error, and not the zero vector), and normalizing any
zero-magnitude vector (in particular the zero vector) returns the zero
vector. -/
theorem truediv_zero_and_normalize_zero (v : Vector3D) :
    v.div 0 = v ∧ (v.magnitude = 0 → v.normalize = Vector3D.zero) := by
  constructor
  · unfold Vector3D.div
    norm_num
  · intro h
    unfold Vector3D.normalize
    rw [if_neg (by simpa using h)]
    rfl

/-- Witness for C4 (amended): the zero vector divided by `0` is the zero
vector (unchanged), and normalizing it yields the zero vector. -/
theorem truediv_zero_and_normalize_zero_witness :
    Vector3D.zero.div 0 = Vector3D.zero ∧
    Vector3D.zero.normalize = Vector3D.zero := by
  have hmag : Vector3D.zero.magnitude = 0 := by
    norm_num [Vector3D.magnitude, Vector3D.zero]
  have h := truediv_zero_and_normalize_zero Vector3D.zero
  exact ⟨h.1, h.2 hmag⟩

/-! ## C2: the backtracking assignment is a greedy prefix-take -/

theorem count_true_append_singleton (asn : List Bool) (b : Bool) :
    (asn ++ [b]).count true = asn.count true + (if b then 1 else 0) := by
  cases b <;> simp [List.count_append]

theorem backtrack_eq_greedyExt (available_slots : Int) :
    ∀ (rem : Nat) (asn : List Bool),
      (asn.count true : Int) ≤ available_slots →
      backtrack available_slots rem asn =
        some (asn ++ greedyExt available_slots (asn.count true) rem) := by
  intro rem
  induction rem with
  | zero => intro asn _; simp [backtrack, greedyExt]
  | succ rem ih =>
    intro asn hasn
    by_cases h : (asn.count true : Int) + 1 ≤ available_slots
    · have hc : is_consistent available_slots (asn ++ [true]) = true := by
        unfold is_consistent
        rw [count_true_append_singleton]
        simp only [if_true]
        exact decide_eq_true (by push_cast; omega)
      have hrec := ih (asn ++ [true]) (by
        rw [count_true_append_singleton]; simp only [if_true]; push_cast; omega)
      unfold backtrack
      rw [hc]
      simp only [if_true, hrec]
      rw [count_true_append_singleton]
      simp only [if_true]
      conv_rhs => rw [greedyExt]
      rw [if_pos h, List.append_assoc]
      push_cast
      rfl
    · have hc : is_consistent available_slots (asn ++ [true]) = false := by
        unfold is_consistent
        rw [count_true_append_singleton]
        simp only [if_true]
        exact decide_eq_false (by push_cast; omega)
      have hc' : is_consistent available_slots (asn ++ [false]) = true := by
        unfold is_consistent
        rw [count_true_append_singleton]
        simp only [if_neg (by simp : ¬ (false : Bool) = true)]
        exact decide_eq_true (by push_cast; omega)
      have hrec := ih (asn ++ [false]) (by
        rw [count_true_append_singleton]
        simp only [if_neg (by simp : ¬ (false : Bool) = true)]
        omega)
      unfold backtrack
      rw [hc]
      simp only [Bool.false_eq_true, if_false, hrec]
      rw [hc']
      simp only [if_true]
      rw [count_true_append_singleton]
      simp only [if_neg (by simp : ¬ (false : Bool) = true), Nat.add_zero]
      conv_rhs => rw [greedyExt]
      rw [if_neg h, List.append_assoc]
      rfl

theorem zip_greedyExt_filterMap {α : Type} :
    ∀ (threats : List α) (available_slots cnt : Int),
      ((threats.zip (greedyExt available_slots cnt threats.length)).filterMap
        (fun p => if p.2 then some p.1 else none)) =
      threats.take (available_slots - cnt).toNat := by
  intro threats
  induction threats with
  | nil => intro k cnt; simp
  | cons t ts ih =>
    intro k cnt
    simp only [List.length_cons]
    unfold greedyExt
    by_cases h : cnt + 1 ≤ k
    · rw [if_pos h]
      simp only [List.zip_cons_cons, List.filterMap_cons, if_true]
      rw [ih k (cnt + 1)]
      have hk : (k - cnt).toNat = (k - (cnt + 1)).toNat + 1 := by omega
      rw [hk, List.take_succ_cons]
    · rw [if_neg h]
      simp only [List.zip_cons_cons, List.filterMap_cons,
        if_neg (by simp : ¬ (false : Bool) = true)]
      rw [ih k cnt]
      have hk : (k - cnt).toNat = 0 := by omega
      rw [hk]
      rfl

/-- Characterization of the whole search: shared helper for C2 and C3. -/
theorem backtrack_neg_slots (available_slots : Int)
    (hneg : available_slots < 0) (rem : Nat) (asn : List Bool) :
    backtrack available_slots (rem + 1) asn = none := by
  have hc : ∀ b, is_consistent available_slots (asn ++ [b]) = false := by
    intro b
    unfold is_consistent
    exact decide_eq_false (by
      intro h
      have : (0 : Int) ≤ ((asn ++ [b]).count true : Int) := by positivity
      omega)
  unfold backtrack
  rw [hc true, hc false]
  simp

theorem assign_interceptors_csp_eq_take {α : Type} (threats : List α)
    (available_slots : Int) :
    assign_interceptors_csp threats available_slots =
      threats.take available_slots.toNat := by
  rcases le_or_lt 0 available_slots with hpos | hneg
  · unfold assign_interceptors_csp
    rw [backtrack_eq_greedyExt available_slots threats.length []
      (by simpa using hpos)]
    simp only [List.count_nil, List.nil_append, Nat.cast_zero]
    have h := zip_greedyExt_filterMap threats available_slots 0
    rw [sub_zero] at h
    exact h
  · have htoNat : available_slots.toNat = 0 := by omega
    rw [htoNat]
    cases threats with
    | nil => simp [assign_interceptors_csp, backtrack]
    | cons t ts =>
      unfold assign_interceptors_csp
      simp only [List.length_cons]
      rw [backtrack_neg_slots available_slots hneg]
      rfl

/-- C2.  For every list of candidate threats (in particular one already sorted
by ascending predicted intercept time) and every available capacity, the
backtracking constraint search of `_assign_interceptors_csp` selects exactly
the first `min(available_slots, number of candidates)` candidates, in order:
it is outcome-equivalent to a greedy prefix-take, and no other candidate is
ever selected.  (`available_slots` is a Python int; a non-positive capacity
selects nothing, and `List.take` takes at most the list's length.) -/
theorem assign_interceptors_csp_greedy {α : Type} (threats : List α)
    (available_slots : Int) :
    assign_interceptors_csp threats available_slots =
      threats.take (min available_slots.toNat threats.length) := by
  rw [assign_interceptors_csp_eq_take, List.take_eq_take]
  omega

/-! ## C10: an expiring interceptor does not move in its final tick -/

/-- C10.  On the `Interceptor.update` call in which `elapsed` first exceeds
`lifetime`, the interceptor is marked destroyed and returns before
integrating motion: position and trail are unchanged on the expiry tick,
while `elapsed` still increments by `dt`. -/
theorem interceptor_expiry_is_inert (dt : ℝ) (i : Interceptor)
    (store : List Threat) (hnd : i.destroyed = false)
    (hexp : i.elapsed + dt > i.lifetime) :
    (Interceptor.update dt i store).1.position = i.position ∧
    (Interceptor.update dt i store).1.trail = i.trail ∧
    (Interceptor.update dt i store).1.elapsed = i.elapsed + dt ∧
    (Interceptor.update dt i store).1.destroyed = true := by
  unfold Interceptor.update
  rw [if_neg (by simp [hnd]), if_pos hexp]
  exact ⟨rfl, rfl, rfl, rfl⟩

/-- Witness for C10: a concrete interceptor with `lifetime = 1`,
`elapsed = 0.5`, stepped by `dt = 1`. -/
theorem interceptor_expiry_is_inert_witness :
    (Interceptor.update 1
        ⟨⟨0, 0, 0⟩, ⟨1, 0, 0⟩, "I1", false, [], 0, 1, 0.5⟩ []).1.position =
      ⟨0, 0, 0⟩ ∧
    (Interceptor.update 1
        ⟨⟨0, 0, 0⟩, ⟨1, 0, 0⟩, "I1", false, [], 0, 1, 0.5⟩ []).1.trail = [] ∧
    (Interceptor.update 1
        ⟨⟨0, 0, 0⟩, ⟨1, 0, 0⟩, "I1", false, [], 0, 1, 0.5⟩ []).1.elapsed =
      0.5 + 1 ∧
    (Interceptor.update 1
        ⟨⟨0, 0, 0⟩, ⟨1, 0, 0⟩, "I1", false, [], 0, 1, 0.5⟩ []).1.destroyed =
      true :=
  interceptor_expiry_is_inert 1
    ⟨⟨0, 0, 0⟩, ⟨1, 0, 0⟩, "I1", false, [], 0, 1, 0.5⟩ [] rfl (by norm_num)

/-! ## C8: the evasive-jet speed clamp -/

theorem Threat.update_velocity (dt : ℝ) (t : Threat) :
    (Threat.update dt t).velocity = t.velocity := by
  unfold Threat.update
  split <;> rfl

theorem Threat.update_flags (dt : ℝ) (t : Threat) :
    (Threat.update dt t).destroyed = t.destroyed ∧
    (Threat.update dt t).hit_ground = t.hit_ground ∧
    (Threat.update dt t).targeted = t.targeted := by
  unfold Threat.update
  split <;> exact ⟨rfl, rfl, rfl⟩

theorem Jet.update_velocity_eq (draw : Vector3D) (dt : ℝ) (t : Threat)
    (hd : t.destroyed = false) (hg : t.hit_ground = false) :
    (Jet.update draw dt t).velocity =
      (if (t.velocity.add (draw.normalize.mul (jet_evasion_strength * dt))).magnitude > 800 then
        (t.velocity.add (draw.normalize.mul (jet_evasion_strength * dt))).normalize.mul 800
      else if (t.velocity.add (draw.normalize.mul (jet_evasion_strength * dt))).magnitude < 200 then
        (t.velocity.add (draw.normalize.mul (jet_evasion_strength * dt))).normalize.mul 200
      else t.velocity.add (draw.normalize.mul (jet_evasion_strength * dt))) := by
  unfold Jet.update
  rw [if_neg (by simp [hd, hg])]
  exact Threat.update_velocity dt _

/-- C8 counterexample: a live jet with velocity `(-100, 0, 0)` receiving the
perturbation draw `(1, 0, 0)` at `dt = 1` ends the update with the zero
velocity — the post-perturbation velocity is the zero vector, whose
`normalize` is again the zero vector, so rescaling to speed 200 fails and the
resulting speed is 0, not in `[200, 800]`. -/
theorem jet_speed_clamp_counterexample :
    ¬ 200 ≤ (Jet.update ⟨1, 0, 0⟩ 1
        ⟨⟨0, 0, 1000⟩, ⟨-100, 0, 0⟩, "J1", false, [], false, false⟩).velocity.magnitude := by
  have h1 : (⟨1, 0, 0⟩ : Vector3D).magnitude = 1 := by
    unfold Vector3D.magnitude
    norm_num
  have hn1 : (⟨1, 0, 0⟩ : Vector3D).normalize = ⟨1, 0, 0⟩ := by
    unfold Vector3D.normalize
    rw [h1]
    norm_num
  have hv1 : (⟨-100, 0, 0⟩ : Vector3D).add
      ((⟨1, 0, 0⟩ : Vector3D).normalize.mul (jet_evasion_strength * 1)) =
      ⟨0, 0, 0⟩ := by
    rw [hn1]
    unfold Vector3D.add Vector3D.mul jet_evasion_strength
    norm_num
  have hmag0 : (⟨0, 0, 0⟩ : Vector3D).magnitude = 0 := by
    unfold Vector3D.magnitude
    norm_num
  have hnz : (⟨0, 0, 0⟩ : Vector3D).normalize = ⟨0, 0, 0⟩ := by
    unfold Vector3D.normalize
    rw [hmag0]
    norm_num
  rw [Jet.update_velocity_eq ⟨1, 0, 0⟩ 1 _ rfl rfl]
  rw [hv1, hmag0]
  rw [if_neg (by norm_num), if_pos (by norm_num), hnz]
  have : (⟨0, 0, 0⟩ : Vector3D).mul 200 = ⟨0, 0, 0⟩ := by
    unfold Vector3D.mul
    norm_num
  rw [this, hmag0]
  norm_num

/-- C8 amended.  For every live evasive jet and every perturbation draw, if
the post-perturbation velocity is nonzero then the resulting speed after the
clamp lies in the closed interval `[200, 800]` (rescaling the direction when
the speed leaves the interval); when the perturbation exactly cancels the
velocity, the resulting velocity is the zero vector instead. -/
theorem jet_speed_clamped (draw : Vector3D) (dt : ℝ) (t : Threat)
    (hd : t.destroyed = false) (hg : t.hit_ground = false)
    (hnz : t.velocity.add (draw.normalize.mul (jet_evasion_strength * dt)) ≠
      Vector3D.zero) :
    200 ≤ (Jet.update draw dt t).velocity.magnitude ∧
    (Jet.update draw dt t).velocity.magnitude ≤ 800 := by
  rw [Jet.update_velocity_eq draw dt t hd hg]
  set v1 := t.velocity.add (draw.normalize.mul (jet_evasion_strength * dt))
    with hv1
  by_cases h800 : v1.magnitude > 800
  · rw [if_pos h800, Vector3D.magnitude_mul, Vector3D.magnitude_normalize v1 hnz]
    norm_num
  · rw [if_neg h800]
    by_cases h200 : v1.magnitude < 200
    · rw [if_pos h200, Vector3D.magnitude_mul, Vector3D.magnitude_normalize v1 hnz]
      norm_num
    · rw [if_neg h200]
      constructor <;> linarith [not_lt.mp h800, not_lt.mp h200]

/-- Witness for C8 (amended): a live jet with velocity `(300, 0, 0)` and the
(degenerate, hence zero-effect) draw `(0, 0, 0)` keeps a speed inside
`[200, 800]`. -/
theorem jet_speed_clamped_witness :
    200 ≤ (Jet.update ⟨0, 0, 0⟩ 1
        ⟨⟨0, 0, 1000⟩, ⟨300, 0, 0⟩, "J1", false, [], false, false⟩).velocity.magnitude ∧
    (Jet.update ⟨0, 0, 0⟩ 1
        ⟨⟨0, 0, 1000⟩, ⟨300, 0, 0⟩, "J1", false, [], false, false⟩).velocity.magnitude ≤ 800 := by
  apply jet_speed_clamped ⟨0, 0, 0⟩ 1
    ⟨⟨0, 0, 1000⟩, ⟨300, 0, 0⟩, "J1", false, [], false, false⟩ rfl rfl
  have hmag0 : (⟨0, 0, 0⟩ : Vector3D).magnitude = 0 := by
    unfold Vector3D.magnitude
    norm_num
  have hnz : (⟨0, 0, 0⟩ : Vector3D).normalize = ⟨0, 0, 0⟩ := by
    unfold Vector3D.normalize
    rw [hmag0]
    norm_num
  show (⟨300, 0, 0⟩ : Vector3D).add
      ((⟨0, 0, 0⟩ : Vector3D).normalize.mul (jet_evasion_strength * 1)) ≠
    Vector3D.zero
  rw [hnz]
  unfold Vector3D.add Vector3D.mul Vector3D.zero
  intro h
  have := congrArg Vector3D.x h
  norm_num at this

/-! ## Characterization of the collision pass (shared by C7, C9, C6) -/

open Classical in
theorem collideInner_spec (itcs : List Interceptor) : ∀ (th : Threat),
    (collideInner th itcs).1 =
      (if ∃ i ∈ itcs, hits th i then { th with destroyed := true } else th) ∧
    (collideInner th itcs).2.1 =
      itcs.map (fun i => if hits th i then { i with destroyed := true } else i) ∧
    itcs.countP (fun i => !i.destroyed) =
      (collideInner th itcs).2.2.1 +
        ((collideInner th itcs).2.1).countP (fun i => !i.destroyed) := by
  induction itcs with
  | nil => intro th; simp [collideInner]
  | cons i is ih =>
    intro th
    by_cases hd : i.destroyed = true
    · have hhit : ¬ hits th i := fun h => h.1 hd
      obtain ⟨ih1, ih2, ih3⟩ := ih th
      simp only [collideInner, if_pos hd, List.map_cons, if_neg hhit,
        List.countP_cons, List.exists_mem_cons_iff]
      refine ⟨?_, ?_, ?_⟩
      · rw [ih1]
        by_cases hex : ∃ x ∈ is, hits th x
        · rw [if_pos hex, if_pos (Or.inr hex)]
        · rw [if_neg hex, if_neg (not_or.mpr ⟨hhit, hex⟩)]
      · rw [ih2]
      · generalize (if (fun i : Interceptor => !i.destroyed) i = true
          then 1 else 0) = A
        omega
    · by_cases hdist : (th.position.sub i.position).magnitude < 200
      · have hhit : hits th i := ⟨by simp [hd], hdist⟩
        obtain ⟨ih1, ih2, ih3⟩ := ih { th with destroyed := true }
        simp only [collideInner, if_neg hd, if_pos hdist, List.map_cons,
          if_pos hhit, List.countP_cons, List.exists_mem_cons_iff]
        refine ⟨?_, ?_, ?_⟩
        · rw [ih1]
          rw [if_pos (Or.inl hhit)]
          split <;> rfl
        · rw [ih2]
          rfl
        · have ht : (if (!i.destroyed) = true then 1 else 0) = 1 := by
            simp [show i.destroyed = false from by simpa using hd]
          have hf : (if (!true) = true then 1 else 0) = 0 := by simp
          rw [ht, hf]
          omega
      · have hhit : ¬ hits th i := fun h => hdist h.2
        obtain ⟨ih1, ih2, ih3⟩ := ih th
        simp only [collideInner, if_neg hd, if_neg hdist, List.map_cons,
          if_neg hhit, List.countP_cons, List.exists_mem_cons_iff]
        refine ⟨?_, ?_, ?_⟩
        · rw [ih1]
          by_cases hex : ∃ x ∈ is, hits th x
          · rw [if_pos hex, if_pos (Or.inr hex)]
          · rw [if_neg hex, if_neg (not_or.mpr ⟨hhit, hex⟩)]
        · rw [ih2]
        · generalize (if (fun i : Interceptor => !i.destroyed) i = true
            then 1 else 0) = A
          omega

/-! ## C3: launch capacity -/

theorem launch_selected_length_le (d : List (Nat × ℝ))
    (acc : DefenseSystem × List Threat) (j : Nat) :
    (launch_selected d acc j).1.interceptors.length ≤
      acc.1.interceptors.length + 1 := by
  unfold launch_selected
  split
  · simp
  · omega

theorem foldl_launch_selected_length_le (d : List (Nat × ℝ)) :
    ∀ (l : List Nat) (acc : DefenseSystem × List Threat),
      ((l.foldl (launch_selected d) acc).1.interceptors.length ≤
        acc.1.interceptors.length + l.length) := by
  intro l
  induction l with
  | nil => intro acc; simp
  | cons j l ih =>
    intro acc
    rw [List.foldl_cons]
    calc ((l.foldl (launch_selected d) (launch_selected d acc j)).1.interceptors.length)
        ≤ (launch_selected d acc j).1.interceptors.length + l.length := ih _
      _ ≤ acc.1.interceptors.length + 1 + l.length :=
          Nat.add_le_add_right (launch_selected_length_le d acc j) _
      _ = acc.1.interceptors.length + (j :: l).length := by simp; omega

/-- C3 counterexample: from a state already over capacity — reachable because
`manual_intercept` appends interceptors without any capacity check — a call
to `detect_and_launch` leaves the active count above `max_interceptors`
(here: two active interceptors, `max_interceptors = 1`, no threats to
detect, so the call is a no-op and the count stays 2 > 1). -/
theorem detect_and_launch_over_capacity :
    ¬ ((detect_and_launch
          ⟨Vector3D.zero, 30000, 10000, 1,
            [⟨⟨0, 0, 0⟩, ⟨0, 0, 0⟩, "I1", false, [], 0, 1, 0⟩,
             ⟨⟨0, 0, 0⟩, ⟨0, 0, 0⟩, "I2", false, [], 0, 1, 0⟩],
            [], 2, 0, 0⟩ []).1.interceptors.length ≤
        (⟨Vector3D.zero, 30000, 10000, 1,
            [⟨⟨0, 0, 0⟩, ⟨0, 0, 0⟩, "I1", false, [], 0, 1, 0⟩,
             ⟨⟨0, 0, 0⟩, ⟨0, 0, 0⟩, "I2", false, [], 0, 1, 0⟩],
            [], 2, 0, 0⟩ : DefenseSystem).max_interceptors) := by
  intro h
  have h2 : (2 : ℕ) ≤ 1 := h
  norm_num at h2

/-- C3 amended.  `detect_and_launch` itself never pushes the active
interceptor count above `max_interceptors`: from any state within capacity,
the count after the call is still at most `max_interceptors` (the launch
loop appends at most `max_interceptors - count` interceptors).  From a state
already over capacity (reachable only through the uncapped manual path) the
call launches nothing but the pre-existing excess persists. -/
theorem detect_and_launch_capacity (ds : DefenseSystem) (threats : List Threat)
    (hcap : ds.interceptors.length ≤ ds.max_interceptors) :
    (detect_and_launch ds threats).1.interceptors.length ≤
      ds.max_interceptors := by
  unfold detect_and_launch
  by_cases hempty : (detect_candidates ds threats).isEmpty
  · rw [if_pos hempty]
    exact hcap
  · rw [if_neg hempty]
    simp only [assign_interceptors_csp_eq_take]
    refine le_trans (foldl_launch_selected_length_le _ _ (ds, threats)) ?_
    have h1 := List.length_take
      ((ds.max_interceptors : Int) - ds.interceptors.length).toNat
      (((detect_candidates ds threats).mergeSort
        (fun a b => decide (a.2 ≤ b.2))).map (fun p => p.1))
    have h2 : ((ds, threats).1).interceptors.length = ds.interceptors.length :=
      rfl
    omega

/-- Witness for C3 (amended): an in-capacity controller with no threats stays
within capacity. -/
theorem detect_and_launch_capacity_witness :
    (detect_and_launch ⟨Vector3D.zero, 30000, 10000, 30, [], [], 0, 0, 0⟩
        []).1.interceptors.length ≤ 30 :=
  detect_and_launch_capacity
    ⟨Vector3D.zero, 30000, 10000, 30, [], [], 0, 0, 0⟩ [] (by norm_num)

/-! ## C5: manual-intercept rejection -/

/-- C5 counterexample: a manual intercept request against a live, feasible
threat that is ALREADY TARGETED is not rejected — `manual_intercept` never
checks `targeted`, so it launches a second interceptor at the threat and
mutates the shared state (launch counter, active collection, event log). -/
theorem manual_intercept_targeted_not_rejected :
    (manual_intercept ⟨Vector3D.zero, 30000, 1, 30, [], [], 0, 0, 0⟩
        [⟨⟨100, 0, 0⟩, ⟨0, 0, 0⟩, "M1", false, [], true, false⟩] 0).2.2 =
      ManualOutcome.launched ∧
    (manual_intercept ⟨Vector3D.zero, 30000, 1, 30, [], [], 0, 0, 0⟩
        [⟨⟨100, 0, 0⟩, ⟨0, 0, 0⟩, "M1", false, [], true, false⟩]
        0).1.total_launches = 1 ∧
    (manual_intercept ⟨Vector3D.zero, 30000, 1, 30, [], [], 0, 0, 0⟩
        [⟨⟨100, 0, 0⟩, ⟨0, 0, 0⟩, "M1", false, [], true, false⟩]
        0).1.interceptors.length = 1 := by
  unfold manual_intercept
  simp only [List.getElem?_cons_zero]
  rw [if_neg (by simp)]
  rw [estimate_intercept_time_example]
  simp only [if_neg (show ¬ (100 : ℝ) ≤ 0 by norm_num)]
  exact ⟨trivial, trivial, rfl⟩

/-- C5 amended.  A manual intercept request against an already-neutralized
threat (destroyed or hit-ground), or against a threat whose intercept-time
estimate is `None` or non-positive, is rejected with the corresponding
outcome and mutates no state: the controller state and the threat store are
returned unchanged (no interceptor appended, no counter change, no targeted
flag set, no event logged).  An already-targeted live feasible threat is NOT
rejected (see the counterexample): the source never checks `targeted` on the
manual path. -/
theorem manual_intercept_rejections_pure (ds : DefenseSystem)
    (threats : List Threat) (idx : Nat) (th : Threat)
    (hth : threats[idx]? = some th) :
    ((th.destroyed ∨ th.hit_ground) →
      manual_intercept ds threats idx = (ds, threats, ManualOutcome.invalid)) ∧
    (¬(th.destroyed ∨ th.hit_ground) →
      (estimate_intercept_time ds.position ds.interceptor_speed
          th.position th.velocity = none ∨
        ∃ t_est, estimate_intercept_time ds.position ds.interceptor_speed
            th.position th.velocity = some t_est ∧ t_est ≤ 0) →
      manual_intercept ds threats idx =
        (ds, threats, ManualOutcome.cannotIntercept)) := by
  unfold manual_intercept
  simp only [hth]
  constructor
  · intro h
    rw [if_pos h]
  · rintro hn (hnone | ⟨t_est, hsome, hle⟩)
    · rw [if_neg hn, hnone]
    · rw [if_neg hn]
      simp only [hsome, if_pos hle]

/-- Witness for C5 (amended): a destroyed threat is rejected as `invalid`
with no state change. -/
theorem manual_intercept_rejections_pure_witness :
    manual_intercept ⟨Vector3D.zero, 30000, 1, 30, [], [], 0, 0, 0⟩
        [⟨⟨100, 0, 0⟩, ⟨0, 0, 0⟩, "M1", true, [], false, false⟩] 0 =
      (⟨Vector3D.zero, 30000, 1, 30, [], [], 0, 0, 0⟩,
        [⟨⟨100, 0, 0⟩, ⟨0, 0, 0⟩, "M1", true, [], false, false⟩],
        ManualOutcome.invalid) :=
  (manual_intercept_rejections_pure
    ⟨Vector3D.zero, 30000, 1, 30, [], [], 0, 0, 0⟩
    [⟨⟨100, 0, 0⟩, ⟨0, 0, 0⟩, "M1", true, [], false, false⟩] 0
    ⟨⟨100, 0, 0⟩, ⟨0, 0, 0⟩, "M1", true, [], false, false⟩ rfl).1
    (Or.inl rfl)

theorem collideOuter_dead_interceptor (ths : List Threat) :
    ∀ (itcs : List Interceptor) (k : Nat) (i : Interceptor),
      itcs[k]? = some i → i.destroyed = true →
      (collideOuter ths itcs).2.1[k]? = some i := by
  induction ths with
  | nil => intro itcs k i hk _; simpa [collideOuter] using hk
  | cons th ths ih =>
    intro itcs k i hk hd
    by_cases hskip : th.destroyed ∨ th.hit_ground
    · simp only [collideOuter, if_pos hskip]
      exact ih itcs k i hk hd
    · simp only [collideOuter, if_neg hskip]
      have h1 : (collideInner th itcs).2.1[k]? = some i := by
        rw [(collideInner_spec itcs th).2.1, List.getElem?_map, hk]
        simp only [Option.map_some']
        rw [if_neg (fun h => h.1 hd)]
      exact ih _ k i h1 hd

theorem collideOuter_count (ths : List Threat) :
    ∀ (itcs : List Interceptor),
      itcs.countP (fun i => !i.destroyed) =
        (collideOuter ths itcs).2.2.1 +
          ((collideOuter ths itcs).2.1).countP (fun i => !i.destroyed) := by
  induction ths with
  | nil => intro itcs; simp [collideOuter]
  | cons th ths ih =>
    intro itcs
    by_cases hskip : th.destroyed ∨ th.hit_ground
    · simp only [collideOuter, if_pos hskip]
      exact ih itcs
    · simp only [collideOuter, if_neg hskip]
      have h1 := (collideInner_spec itcs th).2.2
      have h2 := ih (collideInner th itcs).2.1
      omega

theorem collideOuter_first_hit (ths : List Threat) :
    ∀ (itcs : List Interceptor) (j k : Nat) (t : Threat) (i : Interceptor),
      ths[j]? = some t → itcs[k]? = some i → liveThreat t → hits t i →
      (∀ j' t', j' < j → ths[j']? = some t' → liveThreat t' →
        ¬ ((t'.position.sub i.position).magnitude < 200)) →
      (collideOuter ths itcs).1[j]? = some { t with destroyed := true } ∧
      (collideOuter ths itcs).2.1[k]? = some { i with destroyed := true } := by
  induction ths with
  | nil => intro itcs j k t i hj; simp at hj
  | cons th ths ih =>
    intro itcs j k t i hj hk hlive hhit hfirst
    cases j with
    | zero =>
      rw [List.getElem?_cons_zero] at hj
      injection hj with hj
      subst hj
      have hskip : ¬ (th.destroyed ∨ th.hit_ground) := hlive
      simp only [collideOuter, if_neg hskip]
      constructor
      · rw [List.getElem?_cons_zero, (collideInner_spec itcs th).1,
          if_pos ⟨i, List.getElem?_mem hk, hhit⟩]
      · have hk1 : (collideInner th itcs).2.1[k]? =
            some { i with destroyed := true } := by
          rw [(collideInner_spec itcs th).2.1, List.getElem?_map, hk]
          simp only [Option.map_some']
          rw [if_pos hhit]
        exact collideOuter_dead_interceptor ths _ k _ hk1 rfl
    | succ j' =>
      rw [List.getElem?_cons_succ] at hj
      by_cases hskip : th.destroyed ∨ th.hit_ground
      · simp only [collideOuter, if_pos hskip]
        have hrec := ih itcs j' k t i hj hk hlive hhit
          (fun j'' t' hlt hj'' hlive' =>
            hfirst (j'' + 1) t' (Nat.succ_lt_succ hlt)
              (by rw [List.getElem?_cons_succ]; exact hj'') hlive')
        exact ⟨by rw [List.getElem?_cons_succ]; exact hrec.1, hrec.2⟩
      · simp only [collideOuter, if_neg hskip]
        have hth_live : liveThreat th := hskip
        have hnd := hfirst 0 th (Nat.succ_pos j') List.getElem?_cons_zero
          hth_live
        have hk1 : ((collideInner th itcs).2.1)[k]? = some i := by
          rw [(collideInner_spec itcs th).2.1, List.getElem?_map, hk]
          simp only [Option.map_some']
          rw [if_neg (fun h => hnd h.2)]
        have hrec := ih (collideInner th itcs).2.1 j' k t i hj hk1 hlive hhit
          (fun j'' t' hlt hj'' hlive' =>
            hfirst (j'' + 1) t' (Nat.succ_lt_succ hlt)
              (by rw [List.getElem?_cons_succ]; exact hj'') hlive')
        exact ⟨by rw [List.getElem?_cons_succ]; exact hrec.1, hrec.2⟩

/-! ## C7: collision resolution in `DefenseSystem.update` -/

/-- C7 amended.  During one call to `DefenseSystem.update`, distances are
taken against the interceptor positions advanced by the first phase
(`stepAll`).  (1) For every pair of a live threat and a non-destroyed
advanced interceptor within the 200-unit kill radius such that no
earlier-listed live threat is also within the radius of that interceptor,
both members become destroyed (the threat's slot in the returned store, and
the interceptor's slot in the collision pass, which is then dropped from the
active collection).  (2) The intercept counter increments exactly once per
consumed interceptor: the new counter plus the number of surviving active
interceptors equals the old counter plus the number of active interceptors
that entered the collision pass.  A pair whose interceptor was already
consumed by an earlier-listed live threat is skipped (see the
counterexample), so the per-pair guarantee needs the first-contact
hypothesis. -/
theorem update_collision_resolution (dt : ℝ) (ds : DefenseSystem)
    (threats : List Threat) :
    (∀ (j k : Nat) (t : Threat) (i : Interceptor),
      (stepAll dt ds.interceptors threats).2[j]? = some t →
      (stepAll dt ds.interceptors threats).1[k]? = some i →
      liveThreat t → hits t i →
      (∀ j' t', j' < j →
        (stepAll dt ds.interceptors threats).2[j']? = some t' →
        liveThreat t' → ¬ ((t'.position.sub i.position).magnitude < 200)) →
      ((DefenseSystem.update dt ds threats).2[j]? =
        some { t with destroyed := true } ∧
        (collideOuter (stepAll dt ds.interceptors threats).2
          (stepAll dt ds.interceptors threats).1).2.1[k]? =
          some { i with destroyed := true })) ∧
    (DefenseSystem.update dt ds threats).1.total_intercepted +
        (DefenseSystem.update dt ds threats).1.interceptors.length =
      ds.total_intercepted +
        ((stepAll dt ds.interceptors threats).1.filter
          (fun i => !i.destroyed)).length := by
  constructor
  · intro j k t i hj hk hlive hhit hfirst
    exact collideOuter_first_hit _ _ j k t i hj hk hlive hhit hfirst
  · have hcount := collideOuter_count (stepAll dt ds.interceptors threats).2
      (stepAll dt ds.interceptors threats).1
    have hfil : (DefenseSystem.update dt ds threats).1.interceptors =
        ((collideOuter (stepAll dt ds.interceptors threats).2
          (stepAll dt ds.interceptors threats).1).2.1).filter
          (fun i => !i.destroyed) := rfl
    have htot : (DefenseSystem.update dt ds threats).1.total_intercepted =
        ds.total_intercepted +
          (collideOuter (stepAll dt ds.interceptors threats).2
            (stepAll dt ds.interceptors threats).1).2.2.1 := rfl
    rw [hfil, htot, ← List.countP_eq_length_filter,
      ← List.countP_eq_length_filter]
    omega

theorem interceptor_update_moves (dt : ℝ) (i : Interceptor)
    (store : List Threat) (hnd : i.destroyed = false)
    (hlt : ¬ i.elapsed + dt > i.lifetime) :
    Interceptor.update dt i store =
      ({ i with
          elapsed := i.elapsed + dt,
          trail := pushTrail i.trail i.position,
          position := i.position.add (i.velocity.mul dt) }, store) := by
  unfold Interceptor.update
  rw [if_neg (by simp [hnd]), if_neg hlt]

theorem dist_example :
    ((⟨100, 0, 0⟩ : Vector3D).sub (⟨0, 0, 0⟩ : Vector3D)).magnitude = 100 := by
  unfold Vector3D.sub Vector3D.magnitude
  rw [show ((100 : ℝ) - 0) ^ 2 + (0 - 0) ^ 2 + (0 - 0) ^ 2 = 100 ^ 2 by
    norm_num]
  exact Real.sqrt_sq (by norm_num)

theorem stepAll_example (store : List Threat) :
    stepAll 1 [exInterceptor] store = ([exInterceptor'], store) := by
  unfold stepAll
  rw [interceptor_update_moves 1 exInterceptor store rfl
    (by unfold exInterceptor; norm_num)]
  simp only [stepAll]
  unfold exInterceptor exInterceptor'
  norm_num [pushTrail, Vector3D.add, Vector3D.mul, Prod.ext_iff]

/-- Witness for C7 (amended): one live threat at distance 100 from a single
advanced active interceptor; the pair is first-contact, so both slots are
destroyed by the update. -/
theorem update_collision_resolution_witness :
    (DefenseSystem.update 1 exSystem [exThreat]).2[0]? =
      some { exThreat with destroyed := true } ∧
    (collideOuter (stepAll 1 exSystem.interceptors [exThreat]).2
        (stepAll 1 exSystem.interceptors [exThreat]).1).2.1[0]? =
      some { exInterceptor' with destroyed := true } := by
  have hj : (stepAll 1 exSystem.interceptors [exThreat]).2[0]? =
      some exThreat := by
    show (stepAll 1 [exInterceptor] [exThreat]).2[0]? = some exThreat
    rw [stepAll_example]
    rfl
  have hk : (stepAll 1 exSystem.interceptors [exThreat]).1[0]? =
      some exInterceptor' := by
    show (stepAll 1 [exInterceptor] [exThreat]).1[0]? = some exInterceptor'
    rw [stepAll_example]
    rfl
  have hlive : liveThreat exThreat := by simp [liveThreat, exThreat]
  have hhit : hits exThreat exInterceptor' := by
    refine ⟨by simp [exInterceptor'], ?_⟩
    show ((⟨100, 0, 0⟩ : Vector3D).sub (⟨0, 0, 0⟩ : Vector3D)).magnitude < 200
    rw [dist_example]
    norm_num
  have h := (update_collision_resolution 1 exSystem [exThreat]).1 0 0
    exThreat exInterceptor' hj hk hlive hhit
    (fun j' t' hlt _ _ => absurd hlt (Nat.not_lt_zero j'))
  exact h

/-- C7 counterexample: two live threats at the same position, both within the
kill radius of one advanced interceptor.  The pair (second threat,
interceptor) has distance 100 < 200, the threat is live and the interceptor
active, yet after `DefenseSystem.update` the second threat is NOT destroyed
(the first-listed threat consumed the interceptor) and the counter rose by 1,
not once per qualifying pair. -/
theorem update_collision_pair_counterexample :
    liveThreat exThreat2 ∧
    hits exThreat2 exInterceptor' ∧
    (stepAll 1 exSystem.interceptors [exThreat, exThreat2]).1[0]? =
      some exInterceptor' ∧
    (stepAll 1 exSystem.interceptors [exThreat, exThreat2]).2[1]? =
      some exThreat2 ∧
    (DefenseSystem.update 1 exSystem [exThreat, exThreat2]).2[1]? =
      some exThreat2 ∧
    (DefenseSystem.update 1 exSystem [exThreat, exThreat2]).2[1]?.map
      Threat.destroyed = some false ∧
    (DefenseSystem.update 1 exSystem [exThreat, exThreat2]).1.total_intercepted
      = 1 := by
  have hlive2 : liveThreat exThreat2 := by simp [liveThreat, exThreat2]
  have hhit2 : hits exThreat2 exInterceptor' := by
    refine ⟨by simp [exInterceptor'], ?_⟩
    show ((⟨100, 0, 0⟩ : Vector3D).sub (⟨0, 0, 0⟩ : Vector3D)).magnitude < 200
    rw [dist_example]
    norm_num
  have hstep : stepAll 1 exSystem.interceptors [exThreat, exThreat2] =
      ([exInterceptor'], [exThreat, exThreat2]) := by
    show stepAll 1 [exInterceptor] [exThreat, exThreat2] = _
    rw [stepAll_example]
  have hinner1 : collideInner exThreat [exInterceptor'] =
      (exThreatDead, [exInterceptorDead], 1,
        [exThreat.name ++ " intercepted by " ++ exInterceptor'.name]) := by
    simp only [collideInner]
    rw [if_neg (by simp [exInterceptor']), if_pos (show
      ((exThreat.position).sub exInterceptor'.position).magnitude < 200 by
        show ((⟨100, 0, 0⟩ : Vector3D).sub
          (⟨0, 0, 0⟩ : Vector3D)).magnitude < 200
        rw [dist_example]; norm_num)]
    rfl
  have hinner2 : collideInner exThreat2 [exInterceptorDead] =
      (exThreat2, [exInterceptorDead], 0, []) := by
    simp only [collideInner]
    rw [if_pos (show exInterceptorDead.destroyed = true from rfl)]
  have houter : collideOuter [exThreat, exThreat2] [exInterceptor'] =
      ([exThreatDead, exThreat2], [exInterceptorDead], 1,
        [exThreat.name ++ " intercepted by " ++ exInterceptor'.name]) := by
    simp only [collideOuter]
    rw [if_neg (show ¬ (exThreat.destroyed ∨ exThreat.hit_ground) by
        simp [exThreat]),
      if_neg (show ¬ (exThreat2.destroyed ∨ exThreat2.hit_ground) by
        simp [exThreat2])]
    simp only [hinner1]
    simp only [hinner2]
    rfl
  have hupd : DefenseSystem.update 1 exSystem [exThreat, exThreat2] =
      (⟨Vector3D.zero, 30000, 10000, 30, [],
          [exThreat.name ++ " intercepted by " ++ exInterceptor'.name],
          1, 1, 0⟩,
        [exThreatDead, exThreat2]) := by
    unfold DefenseSystem.update
    rw [hstep]
    simp only [houter]
    rfl
  refine ⟨hlive2, hhit2, ?_, ?_, ?_, ?_, ?_⟩
  · rw [hstep]
    rfl
  · rw [hstep]
    rfl
  · rw [hupd]
    rfl
  · rw [hupd]
    rfl
  · rw [hupd]

/-! ## C9: monotonicity of flags and counters -/

theorem threatFlagsMono_refl (t : Threat) : threatFlagsMono t t := ⟨id, id⟩

theorem storeFlagsMono_refl (ths : List Threat) : storeFlagsMono ths ths := by
  intro j t t' h h'
  rw [h] at h'
  injection h' with h'
  subst h'
  exact ⟨id, id⟩

theorem storeFlagsMono_trans {a b c : List Threat} (hlen : a.length ≤ b.length)
    (h1 : storeFlagsMono a b) (h2 : storeFlagsMono b c) :
    storeFlagsMono a c := by
  intro j t t'' ha hc
  have hj : j < a.length := by
    by_contra h
    rw [List.getElem?_eq_none (le_of_not_lt h)] at ha
    exact absurd ha (by simp)
  have hjb : j < b.length := lt_of_lt_of_le hj hlen
  have hb : b[j]? = some b[j] := List.getElem?_eq_getElem hjb
  exact ⟨fun h => (h2 j _ t'' hb hc).1 ((h1 j t _ ha hb).1 h),
    fun h => (h2 j _ t'' hb hc).2 ((h1 j t _ ha hb).2 h)⟩

theorem storeFlagsMono_cons {t t' : Threat} {ths ths' : List Threat}
    (h : threatFlagsMono t t') (hs : storeFlagsMono ths ths') :
    storeFlagsMono (t :: ths) (t' :: ths') := by
  intro j a a' ha ha'
  cases j with
  | zero =>
    rw [List.getElem?_cons_zero] at ha ha'
    injection ha with ha
    injection ha' with ha'
    subst ha
    subst ha'
    exact h
  | succ j =>
    rw [List.getElem?_cons_succ] at ha ha'
    exact hs j a a' ha ha'

theorem countersMono_refl (ds : DefenseSystem) : countersMono ds ds :=
  ⟨le_refl _, le_refl _, le_refl _⟩

theorem countersMono_trans {a b c : DefenseSystem} (h1 : countersMono a b)
    (h2 : countersMono b c) : countersMono a c :=
  ⟨le_trans h1.1 h2.1, le_trans h1.2.1 h2.2.1, le_trans h1.2.2 h2.2.2⟩

theorem threat_update_mono (dt : ℝ) (t : Threat) :
    threatFlagsMono t (Threat.update dt t) := by
  obtain ⟨h1, h2, _⟩ := Threat.update_flags dt t
  exact ⟨fun h => by rw [h1]; exact h, fun h => by rw [h2]; exact h⟩

theorem missile_update_mono (dt : ℝ) (t : Threat) :
    threatFlagsMono t (Missile.update dt t) := by
  unfold Missile.update
  split
  · exact threatFlagsMono_refl t
  · refine ⟨fun h => ?_, fun h => ?_⟩
    · rw [(Threat.update_flags dt _).1]; exact h
    · rw [(Threat.update_flags dt _).2.1]; exact h

theorem jet_update_mono (draw : Vector3D) (dt : ℝ) (t : Threat) :
    threatFlagsMono t (Jet.update draw dt t) := by
  unfold Jet.update
  split
  · exact threatFlagsMono_refl t
  · refine ⟨fun h => ?_, fun h => ?_⟩
    · rw [(Threat.update_flags dt _).1]; exact h
    · rw [(Threat.update_flags dt _).2.1]; exact h

theorem interceptor_update_store_length (dt : ℝ) (i : Interceptor)
    (store : List Threat) :
    (Interceptor.update dt i store).2.length = store.length := by
  unfold Interceptor.update
  by_cases hd : i.destroyed = true
  · rw [if_pos hd]
  · rw [if_neg hd]
    by_cases hexp : i.elapsed + dt > i.lifetime
    · rw [if_pos hexp]
      rcases hT : store[i.target]? with _ | t
      · simp only [hT]
      · simp only [hT]
        by_cases hcond : ¬t.destroyed ∧ ¬t.hit_ground
        · rw [if_pos hcond]
          exact List.length_set store i.target _
        · rw [if_neg hcond]
    · rw [if_neg hexp]

theorem interceptor_update_mono (dt : ℝ) (i : Interceptor)
    (store : List Threat) :
    (i.destroyed = true → (Interceptor.update dt i store).1.destroyed = true) ∧
    storeFlagsMono store (Interceptor.update dt i store).2 := by
  unfold Interceptor.update
  by_cases hd : i.destroyed = true
  · rw [if_pos hd]
    exact ⟨fun _ => hd, storeFlagsMono_refl store⟩
  · rw [if_neg hd]
    by_cases hexp : i.elapsed + dt > i.lifetime
    · rw [if_pos hexp]
      refine ⟨fun _ => rfl, ?_⟩
      rcases hT : store[i.target]? with _ | t
      · simp only [hT]
        exact storeFlagsMono_refl store
      · simp only [hT]
        split
        · intro j a a' ha ha'
          rw [List.getElem?_set] at ha'
          by_cases hj : i.target = j
          · rw [if_pos hj] at ha'
            have hjl : i.target < store.length := by
              by_contra hc
              rw [List.getElem?_eq_none (le_of_not_lt hc)] at hT
              exact absurd hT (by simp)
            rw [if_pos hjl] at ha'
            injection ha' with ha'
            subst ha'
            subst hj
            rw [ha] at hT
            injection hT with hT
            subst hT
            exact ⟨fun h => h, fun h => h⟩
          · rw [if_neg hj] at ha'
            rw [ha] at ha'
            injection ha' with ha'
            subst ha'
            exact ⟨fun h => h, fun h => h⟩
        · exact storeFlagsMono_refl store
    · rw [if_neg hexp]
      exact ⟨fun h => absurd h hd, storeFlagsMono_refl store⟩

theorem stepAll_mono (dt : ℝ) (itcs : List Interceptor) :
    ∀ (store : List Threat),
      storeFlagsMono store (stepAll dt itcs store).2 ∧
      (stepAll dt itcs store).2.length = store.length := by
  induction itcs with
  | nil => intro store; exact ⟨storeFlagsMono_refl store, rfl⟩
  | cons i is ih =>
    intro store
    simp only [stepAll]
    obtain ⟨h2, h2len⟩ := ih (Interceptor.update dt i store).2
    refine ⟨?_, by rw [h2len, interceptor_update_store_length]⟩
    exact storeFlagsMono_trans
      (le_of_eq (interceptor_update_store_length dt i store).symm)
      (interceptor_update_mono dt i store).2 h2

theorem collideOuter_store_mono (ths : List Threat) :
    ∀ (itcs : List Interceptor),
      storeFlagsMono ths (collideOuter ths itcs).1 ∧
      (collideOuter ths itcs).1.length = ths.length := by
  induction ths with
  | nil =>
    intro itcs
    exact ⟨by intro j t t' h h'; simp at h, rfl⟩
  | cons th ths ih =>
    intro itcs
    by_cases hskip : th.destroyed ∨ th.hit_ground
    · simp only [collideOuter, if_pos hskip]
      obtain ⟨h1, h1len⟩ := ih itcs
      exact ⟨storeFlagsMono_cons (threatFlagsMono_refl th) h1, by
        simp [h1len]⟩
    · simp only [collideOuter, if_neg hskip]
      obtain ⟨h1, h1len⟩ := ih (collideInner th itcs).2.1
      refine ⟨storeFlagsMono_cons ?_ h1, by simp [h1len]⟩
      rw [(collideInner_spec itcs th).1]
      split
      · exact ⟨fun _ => rfl, fun h => h⟩
      · exact threatFlagsMono_refl th

theorem launch_selected_mono (d : List (Nat × ℝ))
    (acc : DefenseSystem × List Threat) (j : Nat) :
    countersMono acc.1 (launch_selected d acc j).1 ∧
    storeFlagsMono acc.2 (launch_selected d acc j).2 ∧
    (launch_selected d acc j).2.length = acc.2.length := by
  unfold launch_selected
  split
  · rename_i p th hfind hget
    refine ⟨⟨Nat.le_succ _, le_refl _, le_refl _⟩, ?_,
      List.length_set acc.2 j _⟩
    intro jj a a' ha ha'
    rw [List.getElem?_set] at ha'
    by_cases hj : j = jj
    · rw [if_pos hj] at ha'
      have hjl : j < acc.2.length := by
        by_contra hc
        rw [List.getElem?_eq_none (le_of_not_lt hc)] at hget
        exact absurd hget (by simp)
      rw [if_pos hjl] at ha'
      injection ha' with ha'
      subst ha'
      subst hj
      rw [ha] at hget
      injection hget with hget
      subst hget
      exact ⟨fun h => h, fun h => h⟩
    · rw [if_neg hj] at ha'
      rw [ha] at ha'
      injection ha' with ha'
      subst ha'
      exact ⟨fun h => h, fun h => h⟩
  · exact ⟨countersMono_refl _, storeFlagsMono_refl _, rfl⟩

theorem foldl_launch_mono (d : List (Nat × ℝ)) :
    ∀ (l : List Nat) (acc : DefenseSystem × List Threat),
      countersMono acc.1 (l.foldl (launch_selected d) acc).1 ∧
      storeFlagsMono acc.2 (l.foldl (launch_selected d) acc).2 ∧
      (l.foldl (launch_selected d) acc).2.length = acc.2.length := by
  intro l
  induction l with
  | nil => intro acc; exact ⟨countersMono_refl _, storeFlagsMono_refl _, rfl⟩
  | cons j l ih =>
    intro acc
    rw [List.foldl_cons]
    obtain ⟨hc1, hs1, hl1⟩ := launch_selected_mono d acc j
    obtain ⟨hc2, hs2, hl2⟩ := ih (launch_selected d acc j)
    exact ⟨countersMono_trans hc1 hc2,
      storeFlagsMono_trans (le_of_eq hl1.symm) hs1 hs2, by rw [hl2, hl1]⟩

theorem detect_and_launch_mono (ds : DefenseSystem) (threats : List Threat) :
    countersMono ds (detect_and_launch ds threats).1 ∧
    storeFlagsMono threats (detect_and_launch ds threats).2 ∧
    (detect_and_launch ds threats).2.length = threats.length := by
  unfold detect_and_launch
  by_cases hempty : (detect_candidates ds threats).isEmpty
  · rw [if_pos hempty]
    exact ⟨countersMono_refl _, storeFlagsMono_refl _, rfl⟩
  · rw [if_neg hempty]
    exact foldl_launch_mono _ _ (ds, threats)

theorem defense_update_mono (dt : ℝ) (ds : DefenseSystem)
    (threats : List Threat) :
    countersMono ds (DefenseSystem.update dt ds threats).1 ∧
    storeFlagsMono threats (DefenseSystem.update dt ds threats).2 ∧
    (DefenseSystem.update dt ds threats).2.length = threats.length := by
  obtain ⟨hs1, hl1⟩ := stepAll_mono dt ds.interceptors threats
  obtain ⟨hs2, hl2⟩ := collideOuter_store_mono
    (stepAll dt ds.interceptors threats).2
    (stepAll dt ds.interceptors threats).1
  refine ⟨⟨le_refl _, Nat.le_add_right _ _, le_refl _⟩, ?_, ?_⟩
  · exact storeFlagsMono_trans (le_of_eq hl1.symm) hs1 hs2
  · show (collideOuter (stepAll dt ds.interceptors threats).2
      (stepAll dt ds.interceptors threats).1).1.length = threats.length
    rw [hl2, hl1]

theorem defense_update_interceptors_live (dt : ℝ) (ds : DefenseSystem)
    (threats : List Threat) :
    ∀ i ∈ (DefenseSystem.update dt ds threats).1.interceptors,
      i.destroyed = false := by
  intro i hi
  have := List.of_mem_filter hi
  simpa using this

theorem record_misses_mono (ths : List Threat) :
    ∀ (ds : DefenseSystem),
      countersMono ds (record_misses ds ths).1 ∧
      storeFlagsMono ths (record_misses ds ths).2 ∧
      (record_misses ds ths).2.length = ths.length := by
  induction ths with
  | nil => intro ds; exact ⟨countersMono_refl _, storeFlagsMono_refl _, rfl⟩
  | cons th ths ih =>
    intro ds
    by_cases hcond : ¬th.destroyed ∧ ¬th.hit_ground ∧ th.position.z ≤ 0
    · simp only [record_misses, if_pos hcond]
      obtain ⟨hc, hs, hl⟩ := ih { ds with
        total_missed := ds.total_missed + 1,
        destruction_messages := ds.destruction_messages ++
          [th.name ++ " hit ground!"] }
      have hstep : countersMono ds { ds with
          total_missed := ds.total_missed + 1,
          destruction_messages := ds.destruction_messages ++
            [th.name ++ " hit ground!"] } :=
        ⟨le_refl _, le_refl _, Nat.le_succ _⟩
      refine ⟨countersMono_trans hstep hc,
        storeFlagsMono_cons ⟨fun h => h, fun _ => rfl⟩ hs, by simp [hl]⟩
    · simp only [record_misses, if_neg hcond]
      obtain ⟨hc, hs, hl⟩ := ih ds
      exact ⟨hc, storeFlagsMono_cons (threatFlagsMono_refl th) hs,
        by simp [hl]⟩

theorem manual_intercept_mono (ds : DefenseSystem) (threats : List Threat)
    (idx : Nat) :
    countersMono ds (manual_intercept ds threats idx).1 ∧
    storeFlagsMono threats (manual_intercept ds threats idx).2.1 := by
  unfold manual_intercept
  rcases hT : threats[idx]? with _ | th
  · simp only [hT]
    exact ⟨countersMono_refl _, storeFlagsMono_refl _⟩
  · simp only [hT]
    split
    · exact ⟨countersMono_refl _, storeFlagsMono_refl _⟩
    · rcases hE : estimate_intercept_time ds.position ds.interceptor_speed
        th.position th.velocity with _ | t_est
      · simp only [hE]
        exact ⟨countersMono_refl _, storeFlagsMono_refl _⟩
      · simp only [hE]
        split
        · exact ⟨countersMono_refl _, storeFlagsMono_refl _⟩
        · refine ⟨⟨Nat.le_succ _, le_refl _, le_refl _⟩, ?_⟩
          intro jj a a' ha ha'
          rw [List.getElem?_set] at ha'
          by_cases hj : idx = jj
          · rw [if_pos hj] at ha'
            have hjl : idx < threats.length := by
              by_contra hc
              rw [List.getElem?_eq_none (le_of_not_lt hc)] at hT
              exact absurd hT (by simp)
            rw [if_pos hjl] at ha'
            injection ha' with ha'
            subst ha'
            subst hj
            rw [ha] at hT
            injection hT with hT
            subst hT
            exact ⟨fun h => h, fun h => h⟩
          · rw [if_neg hj] at ha'
            rw [ha] at ha'
            injection ha' with ha'
            subst ha'
            exact ⟨fun h => h, fun h => h⟩

/-- C9.  Across every core operation — threat motion updates (base,
ballistic, evasive), interceptor motion updates, `detect_and_launch`,
`DefenseSystem.update`, `record_misses`, and manual launches — the
`destroyed` and `hit_ground` flags of every threat never revert from true to
false (index-wise over the shared store), an interceptor's `destroyed` flag
never reverts, and the cumulative counters `total_launches`,
`total_intercepted` and `total_missed` never decrease.  Sequences of these
operations inherit monotonicity by transitivity. -/
theorem core_operations_monotone :
    (∀ (dt : ℝ) (t : Threat), threatFlagsMono t (Threat.update dt t)) ∧
    (∀ (dt : ℝ) (t : Threat), threatFlagsMono t (Missile.update dt t)) ∧
    (∀ (draw : Vector3D) (dt : ℝ) (t : Threat),
      threatFlagsMono t (Jet.update draw dt t)) ∧
    (∀ (dt : ℝ) (i : Interceptor) (store : List Threat),
      (i.destroyed = true → (Interceptor.update dt i store).1.destroyed = true) ∧
      storeFlagsMono store (Interceptor.update dt i store).2) ∧
    (∀ (ds : DefenseSystem) (threats : List Threat),
      countersMono ds (detect_and_launch ds threats).1 ∧
      storeFlagsMono threats (detect_and_launch ds threats).2) ∧
    (∀ (dt : ℝ) (ds : DefenseSystem) (threats : List Threat),
      countersMono ds (DefenseSystem.update dt ds threats).1 ∧
      storeFlagsMono threats (DefenseSystem.update dt ds threats).2 ∧
      (∀ i ∈ (DefenseSystem.update dt ds threats).1.interceptors,
        i.destroyed = false)) ∧
    (∀ (ds : DefenseSystem) (threats : List Threat),
      countersMono ds (record_misses ds threats).1 ∧
      storeFlagsMono threats (record_misses ds threats).2) ∧
    (∀ (ds : DefenseSystem) (threats : List Threat) (idx : Nat),
      countersMono ds (manual_intercept ds threats idx).1 ∧
      storeFlagsMono threats (manual_intercept ds threats idx).2.1) :=
  ⟨threat_update_mono, missile_update_mono, jet_update_mono,
    interceptor_update_mono,
    fun ds threats => ⟨(detect_and_launch_mono ds threats).1,
      (detect_and_launch_mono ds threats).2.1⟩,
    fun dt ds threats => ⟨(defense_update_mono dt ds threats).1,
      (defense_update_mono dt ds threats).2.1,
      defense_update_interceptors_live dt ds threats⟩,
    fun ds threats => ⟨(record_misses_mono threats ds).1,
      (record_misses_mono threats ds).2.1⟩,
    manual_intercept_mono⟩

/-- Witness for C9: concrete discharges — an already-destroyed threat stays
destroyed through a motion update, and a destroyed fixture interceptor stays
destroyed through its update. -/
theorem core_operations_monotone_witness :
    (Threat.update 1 exThreatDead).destroyed = true ∧
    (Interceptor.update 1 exInterceptorDead [exThreat]).1.destroyed = true :=
  ⟨(core_operations_monotone.1 1 exThreatDead).1 rfl,
    (core_operations_monotone.2.2.2.1 1 exInterceptorDead [exThreat]).1 rfl⟩

/-! ## C6: the `targeted` flag bookkeeping through one tick -/

theorem stepI_target (dt : ℝ) (i : Interceptor) :
    (stepI dt i).target = i.target := by
  unfold stepI
  split
  · rfl
  · split <;> rfl

theorem stepI_destroyed_false_iff (dt : ℝ) (i : Interceptor) :
    (stepI dt i).destroyed = false ↔
      i.destroyed = false ∧ ¬ i.elapsed + dt > i.lifetime := by
  unfold stepI
  by_cases hd : i.destroyed = true
  · rw [if_pos hd]
    simp [hd]
  · rw [if_neg hd]
    by_cases hexp : i.elapsed + dt > i.lifetime
    · rw [if_pos hexp]
      simp [hexp]
    · rw [if_neg hexp]
      simp [hexp, Bool.not_eq_true] at hd ⊢

theorem interceptor_update_fst (dt : ℝ) (i : Interceptor)
    (store : List Threat) :
    (Interceptor.update dt i store).1 = stepI dt i := by
  unfold Interceptor.update stepI
  by_cases hd : i.destroyed = true
  · rw [if_pos hd, if_pos hd]
  · rw [if_neg hd, if_neg hd]
    by_cases hexp : i.elapsed + dt > i.lifetime
    · rw [if_pos hexp, if_pos hexp]
    · rw [if_neg hexp, if_neg hexp]

theorem stepAll_fst (dt : ℝ) (itcs : List Interceptor) :
    ∀ (store : List Threat),
      (stepAll dt itcs store).1 = itcs.map (stepI dt) := by
  induction itcs with
  | nil => intro store; rfl
  | cons i is ih =>
    intro store
    simp only [stepAll, List.map_cons]
    rw [interceptor_update_fst, ih]

open Classical in
theorem interceptor_update_snd (dt : ℝ) (i : Interceptor)
    (store : List Threat) (j : Nat) :
    (Interceptor.update dt i store).2[j]? =
      Option.map (fun t =>
        if liveThreat t ∧ expiring dt i ∧ i.target = j
        then { t with targeted := false } else t) store[j]? := by
  unfold Interceptor.update
  by_cases hd : i.destroyed = true
  · rw [if_pos hd]
    rcases hj : store[j]? with _ | t
    · rfl
    · simp only [Option.map_some']
      rw [if_neg (by rintro ⟨_, ⟨hf, _⟩, _⟩; rw [hd] at hf; cases hf)]
  · rw [if_neg hd]
    have hd' : i.destroyed = false := by simpa using hd
    by_cases hexp : i.elapsed + dt > i.lifetime
    · rw [if_pos hexp]
      rcases hT : store[i.target]? with _ | tt
      · simp only [hT]
        rcases hj : store[j]? with _ | t
        · rfl
        · simp only [Option.map_some']
          rw [if_neg (by
            rintro ⟨_, _, htj⟩
            rw [htj, hj] at hT
            cases hT)]
      · simp only [hT]
        by_cases hcond : ¬tt.destroyed ∧ ¬tt.hit_ground
        · rw [if_pos hcond]
          rw [List.getElem?_set]
          by_cases hj : i.target = j
          · rw [if_pos hj]
            have hjl : i.target < store.length := by
              by_contra hc
              rw [List.getElem?_eq_none (le_of_not_lt hc)] at hT
              cases hT
            rw [if_pos hjl]
            rw [hj] at hT
            rw [hT]
            simp only [Option.map_some']
            rw [if_pos ⟨fun h => h.elim (fun h1 => hcond.1 h1)
              (fun h2 => hcond.2 h2), ⟨hd', hexp⟩, hj⟩]
          · rw [if_neg hj]
            rcases hjv : store[j]? with _ | t
            · rfl
            · simp only [Option.map_some']
              rw [if_neg (by rintro ⟨_, _, htj⟩; exact hj htj)]
        · rw [if_neg hcond]
          rcases hjv : store[j]? with _ | t
          · rfl
          · simp only [Option.map_some']
            rw [if_neg (by
              rintro ⟨hlt, _, htj⟩
              rw [htj, hjv] at hT
              injection hT with hT
              subst hT
              exact hcond ⟨fun h => hlt (Or.inl h), fun h => hlt (Or.inr h)⟩)]
    · rw [if_neg hexp]
      rcases hj : store[j]? with _ | t
      · rfl
      · simp only [Option.map_some']
        rw [if_neg (by rintro ⟨_, ⟨_, he⟩, _⟩; exact hexp he)]

open Classical in
theorem stepAll_snd (dt : ℝ) (itcs : List Interceptor) :
    ∀ (store : List Threat) (j : Nat),
      (stepAll dt itcs store).2[j]? =
        Option.map (fun t =>
          if liveThreat t ∧ ∃ i ∈ itcs, expiring dt i ∧ i.target = j
          then { t with targeted := false } else t) store[j]? := by
  induction itcs with
  | nil =>
    intro store j
    show store[j]? = _
    rcases hj : store[j]? with _ | t
    · rfl
    · simp only [Option.map_some']
      rw [if_neg (by rintro ⟨_, i, hi, _⟩; simp at hi)]
  | cons i is ih =>
    intro store j
    simp only [stepAll]
    rw [ih (Interceptor.update dt i store).2 j, interceptor_update_snd]
    rcases hj : store[j]? with _ | t
    · rfl
    · simp only [Option.map_some']
      by_cases hci : liveThreat t ∧ expiring dt i ∧ i.target = j
      · rw [if_pos hci]
        by_cases hex : ∃ i' ∈ is, expiring dt i' ∧ i'.target = j
        · rw [if_pos ⟨hci.1, hex⟩,
            if_pos ⟨hci.1, i, List.mem_cons_self i is, hci.2⟩]
        · rw [if_neg (fun h => hex h.2),
            if_pos ⟨hci.1, i, List.mem_cons_self i is, hci.2⟩]
      · rw [if_neg hci]
        by_cases hlive : liveThreat t
        · by_cases hex : ∃ i' ∈ is, expiring dt i' ∧ i'.target = j
          · obtain ⟨i', hi', he'⟩ := hex
            rw [if_pos ⟨hlive, i', hi', he'⟩,
              if_pos ⟨hlive, i', List.mem_cons_of_mem i hi', he'⟩]
          · rw [if_neg (fun h => hex h.2), if_neg (fun h => by
              obtain ⟨_, i'', hi'', he''⟩ := h
              rcases List.mem_cons.mp hi'' with heq | hmem
              · subst heq
                exact hci ⟨hlive, he''⟩
              · exact hex ⟨i'', hmem, he''⟩)]
        · rw [if_neg (fun h => hlive h.1), if_neg (fun h => hlive h.1)]

theorem stepAll_matched (dt : ℝ) (itcs : List Interceptor)
    (store : List Threat) (hmatch : targetedMatched itcs store)
    (hinj : targetsInjective itcs) :
    targetedMatched (stepAll dt itcs store).1 (stepAll dt itcs store).2 ∧
    targetsInjective (stepAll dt itcs store).1 := by
  rw [stepAll_fst]
  constructor
  · intro j t' hj' hlive'
    rw [stepAll_snd] at hj'
    rcases hst : store[j]? with _ | t
    · rw [hst] at hj'
      cases hj'
    · rw [hst] at hj'
      simp only [Option.map_some'] at hj'
      injection hj' with hj'
      by_cases hC : liveThreat t ∧ ∃ i ∈ itcs, expiring dt i ∧ i.target = j
      · rw [if_pos hC] at hj'
        subst hj'
        constructor
        · intro hfalse
          simp at hfalse
        · rintro ⟨i', hi', hnd', htg'⟩
          obtain ⟨i0, hi0, hstep0⟩ := List.mem_map.mp hi'
          obtain ⟨iE, hiE, hExp, hEtg⟩ := hC.2
          obtain ⟨k0, hk0⟩ := List.mem_iff_getElem?.mp hi0
          obtain ⟨kE, hkE⟩ := List.mem_iff_getElem?.mp hiE
          have hnd0 : i0.destroyed = false ∧ ¬ i0.elapsed + dt > i0.lifetime :=
            (stepI_destroyed_false_iff dt i0).mp (by rw [hstep0]; exact hnd')
          have htg0 : i0.target = j := by
            rw [← stepI_target dt i0, hstep0]
            exact htg'
          have hkk : k0 = kE := hinj k0 kE i0 iE hk0 hkE hnd0.1 hExp.1
            (by rw [htg0, hEtg])
          rw [hkk, hkE] at hk0
          injection hk0 with hk0
          subst hk0
          exact absurd hExp.2 hnd0.2
      · rw [if_neg hC] at hj'
        subst hj'
        have hC' : ¬ ∃ i ∈ itcs, expiring dt i ∧ i.target = j :=
          fun h => hC ⟨hlive', h⟩
        rw [hmatch j t hst hlive']
        constructor
        · rintro ⟨i0, hi0, hnd0, htg0⟩
          have hnexp : ¬ i0.elapsed + dt > i0.lifetime :=
            fun he => hC' ⟨i0, hi0, ⟨hnd0, he⟩, htg0⟩
          exact ⟨stepI dt i0, List.mem_map_of_mem _ hi0,
            (stepI_destroyed_false_iff dt i0).mpr ⟨hnd0, hnexp⟩,
            by rw [stepI_target]; exact htg0⟩
        · rintro ⟨i', hi', hnd', htg'⟩
          obtain ⟨i0, hi0, hstep0⟩ := List.mem_map.mp hi'
          have h0 := (stepI_destroyed_false_iff dt i0).mp
            (by rw [hstep0]; exact hnd')
          exact ⟨i0, hi0, h0.1, by rw [← stepI_target dt i0, hstep0]; exact htg'⟩
  · intro k k' i i' hk hk' hnd hnd' htg
    rw [List.getElem?_map] at hk hk'
    rcases h0 : itcs[k]? with _ | i0
    · rw [h0] at hk
      cases hk
    rcases h0' : itcs[k']? with _ | i0'
    · rw [h0'] at hk'
      cases hk'
    rw [h0] at hk
    rw [h0'] at hk'
    simp only [Option.map_some'] at hk hk'
    injection hk with hk
    injection hk' with hk'
    subst hk
    subst hk'
    have ha := (stepI_destroyed_false_iff dt i0).mp hnd
    have hb := (stepI_destroyed_false_iff dt i0').mp hnd'
    exact hinj k k' i0 i0' h0 h0' ha.1 hb.1
      (by rw [← stepI_target dt i0, ← stepI_target dt i0']; exact htg)

theorem collideOuter_threat_cases (ths : List Threat) :
    ∀ (itcs : List Interceptor) (j : Nat) (t' : Threat),
      (collideOuter ths itcs).1[j]? = some t' →
      ∃ t, ths[j]? = some t ∧ (t' = t ∨ t' = { t with destroyed := true }) := by
  induction ths with
  | nil => intro itcs j t' h; simp [collideOuter] at h
  | cons th ths ih =>
    intro itcs j t' h
    by_cases hskip : th.destroyed ∨ th.hit_ground
    · simp only [collideOuter, if_pos hskip] at h
      cases j with
      | zero =>
        rw [List.getElem?_cons_zero] at h
        injection h with h
        exact ⟨th, List.getElem?_cons_zero, Or.inl h.symm⟩
      | succ j =>
        rw [List.getElem?_cons_succ] at h
        obtain ⟨t, ht, hc⟩ := ih itcs j t' h
        exact ⟨t, by rw [List.getElem?_cons_succ]; exact ht, hc⟩
    · simp only [collideOuter, if_neg hskip] at h
      cases j with
      | zero =>
        rw [List.getElem?_cons_zero] at h
        injection h with h
        rw [(collideInner_spec itcs th).1] at h
        refine ⟨th, List.getElem?_cons_zero, ?_⟩
        by_cases hex : ∃ i ∈ itcs, hits th i
        · rw [if_pos hex] at h
          exact Or.inr h.symm
        · rw [if_neg hex] at h
          exact Or.inl h.symm
      | succ j =>
        rw [List.getElem?_cons_succ] at h
        obtain ⟨t, ht, hc⟩ := ih (collideInner th itcs).2.1 j t' h
        exact ⟨t, by rw [List.getElem?_cons_succ]; exact ht, hc⟩

theorem collideOuter_itc_cases (ths : List Threat) :
    ∀ (itcs : List Interceptor) (k : Nat) (i' : Interceptor),
      (collideOuter ths itcs).2.1[k]? = some i' →
      ∃ i, itcs[k]? = some i ∧ (i' = i ∨ i' = { i with destroyed := true }) := by
  induction ths with
  | nil =>
    intro itcs k i' h
    exact ⟨i', h, Or.inl rfl⟩
  | cons th ths ih =>
    intro itcs k i' h
    by_cases hskip : th.destroyed ∨ th.hit_ground
    · simp only [collideOuter, if_pos hskip] at h
      exact ih itcs k i' h
    · simp only [collideOuter, if_neg hskip] at h
      obtain ⟨i1, h1, hc1⟩ := ih (collideInner th itcs).2.1 k i' h
      rw [(collideInner_spec itcs th).2.1, List.getElem?_map] at h1
      rcases h0 : itcs[k]? with _ | i
      · rw [h0] at h1
        cases h1
      · rw [h0] at h1
        simp only [Option.map_some'] at h1
        injection h1 with h1
        refine ⟨i, rfl, ?_⟩
        by_cases hhit : hits th i
        · rw [if_pos hhit] at h1
          rcases hc1 with hc | hc
          · exact Or.inr (by rw [hc, ← h1])
          · exact Or.inr (by rw [hc, ← h1])
        · rw [if_neg hhit] at h1
          rw [← h1] at hc1
          exact hc1

theorem collideOuter_itc_safe (ths : List Threat) :
    ∀ (itcs : List Interceptor) (k : Nat) (i : Interceptor),
      itcs[k]? = some i →
      (∀ (j : Nat) (t : Threat), ths[j]? = some t → liveThreat t →
        ¬ ((t.position.sub i.position).magnitude < 200)) →
      (collideOuter ths itcs).2.1[k]? = some i := by
  induction ths with
  | nil => intro itcs k i hk _; exact hk
  | cons th ths ih =>
    intro itcs k i hk hno
    by_cases hskip : th.destroyed ∨ th.hit_ground
    · simp only [collideOuter, if_pos hskip]
      exact ih itcs k i hk (fun j t hj hl =>
        hno (j + 1) t (by rw [List.getElem?_cons_succ]; exact hj) hl)
    · simp only [collideOuter, if_neg hskip]
      have hk1 : (collideInner th itcs).2.1[k]? = some i := by
        rw [(collideInner_spec itcs th).2.1, List.getElem?_map, hk]
        simp only [Option.map_some']
        rw [if_neg (fun hh =>
          hno 0 th List.getElem?_cons_zero hskip hh.2)]
      exact ih (collideInner th itcs).2.1 k i hk1 (fun j t hj hl =>
        hno (j + 1) t (by rw [List.getElem?_cons_succ]; exact hj) hl)

theorem collideOuter_matched (ths : List Threat) (itcs : List Interceptor)
    (hmatch : targetedMatched itcs ths) (hinj : targetsInjective itcs)
    (hown : ∀ (j k : Nat) (t : Threat) (i : Interceptor), ths[j]? = some t →
      liveThreat t → itcs[k]? = some i → i.destroyed = false →
      (t.position.sub i.position).magnitude < 200 → i.target = j) :
    targetedMatched (collideOuter ths itcs).2.1 (collideOuter ths itcs).1 ∧
    targetsInjective (collideOuter ths itcs).2.1 := by
  constructor
  · intro j t' hj' hlive'
    obtain ⟨t, hjt, hcase⟩ := collideOuter_threat_cases ths itcs j t' hj'
    have ht't : t' = t := by
      rcases hcase with h | h
      · exact h
      · exact absurd (Or.inl (by rw [h] : t'.destroyed = true)) hlive'
    subst ht't
    have hlive : liveThreat t' := hlive'
    rw [hmatch j t' hjt hlive]
    constructor
    · rintro ⟨i, hi, hnd, htg⟩
      obtain ⟨k, hk⟩ := List.mem_iff_getElem?.mp hi
      have hnoclose : ∀ (j2 : Nat) (t2 : Threat), ths[j2]? = some t2 →
          liveThreat t2 →
          ¬ ((t2.position.sub i.position).magnitude < 200) := by
        intro j2 t2 hj2 hlive2 hclose
        have htg2 : i.target = j2 := hown j2 k t2 i hj2 hlive2 hk hnd hclose
        have hjj : j2 = j := by rw [← htg2, htg]
        subst hjj
        rw [hjt] at hj2
        injection hj2 with hj2
        subst hj2
        have hfirst : ∀ (j3 : Nat) (t3 : Threat), j3 < j2 → ths[j3]? = some t3 →
            liveThreat t3 →
            ¬ ((t3.position.sub i.position).magnitude < 200) := by
          intro j3 t3 hlt hj3 hlive3 hclose3
          have h3 := hown j3 k t3 i hj3 hlive3 hk hnd hclose3
          rw [htg2] at h3
          omega
        have hdes := (collideOuter_first_hit ths itcs j2 k t' i hjt hk hlive2
          ⟨by simp [hnd], hclose⟩ hfirst).1
        rw [hj'] at hdes
        injection hdes with hdes
        have hx := congrArg Threat.destroyed hdes
        exact hlive2 (Or.inl hx)
      have hsurv := collideOuter_itc_safe ths itcs k i hk hnoclose
      exact ⟨i, List.mem_iff_getElem?.mpr ⟨k, hsurv⟩, hnd, htg⟩
    · rintro ⟨i', hi', hnd', htg'⟩
      obtain ⟨k, hk'⟩ := List.mem_iff_getElem?.mp hi'
      obtain ⟨i, hk, hcase2⟩ := collideOuter_itc_cases ths itcs k i' hk'
      have hi'i : i' = i := by
        rcases hcase2 with h | h
        · exact h
        · rw [h] at hnd'
          cases hnd'
      subst hi'i
      exact ⟨i', List.mem_iff_getElem?.mpr ⟨k, hk⟩, hnd', htg'⟩
  · intro k k' i i' hk hk' hnd hnd' htg
    obtain ⟨i0, h0, hc0⟩ := collideOuter_itc_cases ths itcs k i hk
    obtain ⟨i0', h0', hc0'⟩ := collideOuter_itc_cases ths itcs k' i' hk'
    have hii : i = i0 := by
      rcases hc0 with h | h
      · exact h
      · rw [h] at hnd
        cases hnd
    have hii' : i' = i0' := by
      rcases hc0' with h | h
      · exact h
      · rw [h] at hnd'
        cases hnd'
    subst hii
    subst hii'
    exact hinj k k' i i' h0 h0' hnd hnd' htg

theorem mem_enum_getElem {α : Type} (l : List α) (p : Nat × α)
    (hp : p ∈ l.enum) : l[p.1]? = some p.2 := by
  obtain ⟨k, hk⟩ := List.mem_iff_getElem?.mp hp
  rw [show l.enum = List.enumFrom 0 l from rfl, List.getElem?_enumFrom] at hk
  rcases hl : l[k]? with _ | a
  · rw [hl] at hk
    cases hk
  · rw [hl] at hk
    simp only [Option.map_some'] at hk
    injection hk with hk
    rw [← hk]
    simpa using hl

theorem detect_fun_some (ds : DefenseSystem) (a : Nat × Threat) (c : Nat × ℝ)
    (h : (if a.2.destroyed ∨ a.2.targeted ∨ a.2.hit_ground then none
      else if (a.2.position.sub ds.position).magnitude ≤ ds.radar_range then
        match estimate_intercept_time ds.position ds.interceptor_speed
            a.2.position a.2.velocity with
        | some t => if t > 0 then some (a.1, t) else none
        | none => none
      else none) = some c) :
    c.1 = a.1 ∧ a.2.destroyed = false ∧ a.2.targeted = false ∧
      a.2.hit_ground = false := by
  by_cases h1 : a.2.destroyed ∨ a.2.targeted ∨ a.2.hit_ground
  · rw [if_pos h1] at h
    cases h
  · rw [if_neg h1] at h
    push_neg at h1
    have hflags : a.2.destroyed = false ∧ a.2.targeted = false ∧
        a.2.hit_ground = false := by
      simp only [Bool.not_eq_true] at h1
      exact h1
    by_cases h2 : (a.2.position.sub ds.position).magnitude ≤ ds.radar_range
    · rw [if_pos h2] at h
      rcases he : estimate_intercept_time ds.position ds.interceptor_speed
          a.2.position a.2.velocity with _ | t
      · simp only [he] at h
        cases h
      · simp only [he] at h
        by_cases h3 : t > 0
        · rw [if_pos h3] at h
          injection h with h
          exact ⟨by rw [← h], hflags⟩
        · rw [if_neg h3] at h
          cases h
    · rw [if_neg h2] at h
      cases h

theorem detect_candidates_mem (ds : DefenseSystem) (threats : List Threat)
    (c : Nat × ℝ) (hc : c ∈ detect_candidates ds threats) :
    ∃ t, threats[c.1]? = some t ∧ t.destroyed = false ∧ t.targeted = false ∧
      t.hit_ground = false := by
  unfold detect_candidates at hc
  obtain ⟨a, ha, hfa⟩ := List.mem_filterMap.mp hc
  obtain ⟨h1, h2, h3, h4⟩ := detect_fun_some ds a c hfa
  refine ⟨a.2, ?_, h2, h3, h4⟩
  rw [h1]
  exact mem_enum_getElem threats a ha

theorem enumFrom_fst_le {α : Type} (l : List α) :
    ∀ (n : Nat) (p : Nat × α), p ∈ List.enumFrom n l → n ≤ p.1 := by
  induction l with
  | nil =>
    intro n p h
    cases h
  | cons x l ih =>
    intro n p h
    rw [List.enumFrom_cons] at h
    rcases List.mem_cons.mp h with h | h
    · rw [h]
    · exact Nat.le_of_succ_le (ih (n + 1) p h)

theorem enumFrom_pairwise {α : Type} (l : List α) :
    ∀ (n : Nat), (List.enumFrom n l).Pairwise (fun p q => p.1 < q.1) := by
  induction l with
  | nil =>
    intro n
    exact List.Pairwise.nil
  | cons x l ih =>
    intro n
    rw [List.enumFrom_cons]
    refine List.Pairwise.cons ?_ (ih (n + 1))
    intro q hq
    exact Nat.lt_of_lt_of_le (Nat.lt_succ_self n) (enumFrom_fst_le l (n + 1) q hq)

theorem detect_candidates_pairwise (ds : DefenseSystem) (threats : List Threat) :
    (detect_candidates ds threats).Pairwise (fun p q => p.1 < q.1) := by
  unfold detect_candidates
  rw [List.pairwise_filterMap]
  refine List.Pairwise.imp ?_ (enumFrom_pairwise threats 0)
  intro a b hab c hc d hd
  rw [Option.mem_def] at hc hd
  have h1 := (detect_fun_some ds a c hc).1
  have h2 := (detect_fun_some ds b d hd).1
  rw [h1, h2]
  exact hab

theorem dalSorted_fst_nodup (ds : DefenseSystem) (threats : List Threat) :
    ((dalSorted ds threats).map (fun p => p.1)).Nodup := by
  have hpw := detect_candidates_pairwise ds threats
  have hnd : ((detect_candidates ds threats).map (fun p => p.1)).Nodup := by
    unfold List.Nodup
    exact hpw.map (fun (p : Nat × ℝ) => p.1) (fun a b h => Nat.ne_of_lt h)
  have hperm : List.Perm (dalSorted ds threats) (detect_candidates ds threats) :=
    List.mergeSort_perm _ _
  exact ((hperm.map (fun p => p.1)).nodup_iff).mpr hnd

theorem targetsInjective_append_one (itcs : List Interceptor)
    (nw : Interceptor) (hinj : targetsInjective itcs)
    (hfresh : ∀ i ∈ itcs, i.destroyed = false → i.target ≠ nw.target) :
    targetsInjective (itcs ++ [nw]) := by
  intro k k' i i' hk hk' hnd hnd' htg
  by_cases hkl : k < itcs.length
  · by_cases hk'l : k' < itcs.length
    · rw [List.getElem?_append_left hkl] at hk
      rw [List.getElem?_append_left hk'l] at hk'
      exact hinj k k' i i' hk hk' hnd hnd' htg
    · have hk'len : k' < itcs.length + 1 := by
        have h := (List.getElem?_eq_some_iff.mp hk').1
        simpa using h
      have hke : k' = itcs.length := by omega
      subst hke
      rw [List.getElem?_append_right (Nat.le_refl _), Nat.sub_self,
        List.getElem?_cons_zero] at hk'
      injection hk' with hk'
      subst hk'
      rw [List.getElem?_append_left hkl] at hk
      exact absurd htg (hfresh i (List.mem_iff_getElem?.mpr ⟨k, hk⟩) hnd)
  · have hklen : k < itcs.length + 1 := by
      have h := (List.getElem?_eq_some_iff.mp hk).1
      simpa using h
    have hke : k = itcs.length := by omega
    subst hke
    rw [List.getElem?_append_right (Nat.le_refl _), Nat.sub_self,
      List.getElem?_cons_zero] at hk
    injection hk with hk
    subst hk
    by_cases hk'l : k' < itcs.length
    · rw [List.getElem?_append_left hk'l] at hk'
      exact absurd htg.symm
        (hfresh i' (List.mem_iff_getElem?.mpr ⟨k', hk'⟩) hnd')
    · have hk'len : k' < itcs.length + 1 := by
        have h := (List.getElem?_eq_some_iff.mp hk').1
        simpa using h
      omega

theorem foldl_launch_matched (sorted : List (Nat × ℝ)) :
    ∀ (sel : List Nat) (acc : DefenseSystem × List Threat),
      sel.Nodup →
      (∀ j ∈ sel, ∃ p, sorted.find? (fun q => q.1 == j) = some p) →
      (∀ j ∈ sel, ∃ t, acc.2[j]? = some t ∧ t.destroyed = false ∧
        t.targeted = false ∧ t.hit_ground = false) →
      targetedMatched acc.1.interceptors acc.2 →
      targetsInjective acc.1.interceptors →
      targetedMatched (sel.foldl (launch_selected sorted) acc).1.interceptors
          (sel.foldl (launch_selected sorted) acc).2 ∧
      targetsInjective
        (sel.foldl (launch_selected sorted) acc).1.interceptors := by
  intro sel
  induction sel with
  | nil =>
    intro acc _ _ _ hmatch hinj
    exact ⟨hmatch, hinj⟩
  | cons j sel ih =>
    intro acc hnodup hfind hunt hmatch hinj
    obtain ⟨p, hp⟩ := hfind j (List.mem_cons_self j sel)
    obtain ⟨th, hth, hthd, hthg, hthh⟩ := hunt j (List.mem_cons_self j sel)
    have hthlive : liveThreat th := by
      intro hc
      rcases hc with hc | hc
      · rw [hthd] at hc
        cases hc
      · rw [hthh] at hc
        cases hc
    have hjlen : j < acc.2.length := (List.getElem?_eq_some_iff.mp hth).1
    have hstep : launch_selected sorted acc j =
        ({ acc.1 with
            interceptors := acc.1.interceptors ++
              [launch_interceptor acc.1 j th p.2],
            total_launches := acc.1.total_launches + 1,
            destruction_messages := acc.1.destruction_messages ++
              ["Interceptor " ++ (launch_interceptor acc.1 j th p.2).name ++
                " launched for " ++ th.name] },
          acc.2.set j { th with targeted := true }) := by
      unfold launch_selected
      rw [hp, hth]
    have hnomem : ∀ i ∈ acc.1.interceptors, i.destroyed = false →
        i.target ≠ j := by
      intro i hi hid htgt
      have h := (hmatch j th hth hthlive).mpr ⟨i, hi, hid, htgt⟩
      rw [hthg] at h
      cases h
    have hmatch' : targetedMatched
        (acc.1.interceptors ++ [launch_interceptor acc.1 j th p.2])
        (acc.2.set j { th with targeted := true }) := by
      intro j2 t2 hj2 hl2
      by_cases hjj : j2 = j
      · subst hjj
        rw [List.getElem?_set_self hjlen] at hj2
        injection hj2 with hj2
        rw [← hj2]
        constructor
        · intro _
          exact ⟨launch_interceptor acc.1 j2 th p.2,
            List.mem_append_right _ (List.mem_cons_self _ _), rfl, rfl⟩
        · intro _
          rfl
      · rw [List.getElem?_set_ne (fun h => hjj h.symm)] at hj2
        rw [hmatch j2 t2 hj2 hl2]
        constructor
        · rintro ⟨i, hi, hd, ht⟩
          exact ⟨i, List.mem_append_left _ hi, hd, ht⟩
        · rintro ⟨i, hi, hd, ht⟩
          rcases List.mem_append.mp hi with hi | hi
          · exact ⟨i, hi, hd, ht⟩
          · rw [List.mem_singleton] at hi
            subst hi
            have htnew : (launch_interceptor acc.1 j th p.2).target = j := rfl
            rw [htnew] at ht
            exact absurd ht.symm hjj
    have hinj' : targetsInjective
        (acc.1.interceptors ++ [launch_interceptor acc.1 j th p.2]) := by
      refine targetsInjective_append_one acc.1.interceptors _ hinj ?_
      intro i hi hid
      exact hnomem i hi hid
    rw [List.foldl_cons, hstep]
    refine ih _ (List.nodup_cons.mp hnodup).2
      (fun j2 hj2 => hfind j2 (List.mem_cons_of_mem j hj2)) ?_ hmatch' hinj'
    intro j2 hj2
    obtain ⟨t2, ht2, h2a, h2b, h2c⟩ := hunt j2 (List.mem_cons_of_mem j hj2)
    have hne : j ≠ j2 := by
      intro h
      subst h
      exact (List.nodup_cons.mp hnodup).1 hj2
    refine ⟨t2, ?_, h2a, h2b, h2c⟩
    rw [List.getElem?_set_ne hne]
    exact ht2

theorem detect_and_launch_eq_foldl (ds : DefenseSystem) (threats : List Threat)
    (h : ¬(detect_candidates ds threats).isEmpty = true) :
    detect_and_launch ds threats =
      (dalSelected ds threats).foldl (launch_selected (dalSorted ds threats))
        (ds, threats) := by
  unfold detect_and_launch
  rw [if_neg h]
  rfl

theorem detect_and_launch_matched (ds : DefenseSystem) (threats : List Threat)
    (hmatch : targetedMatched ds.interceptors threats)
    (hinj : targetsInjective ds.interceptors) :
    targetedMatched (detect_and_launch ds threats).1.interceptors
      (detect_and_launch ds threats).2 ∧
    targetsInjective (detect_and_launch ds threats).1.interceptors := by
  by_cases hempty : (detect_candidates ds threats).isEmpty = true
  · unfold detect_and_launch
    rw [if_pos hempty]
    exact ⟨hmatch, hinj⟩
  · rw [detect_and_launch_eq_foldl ds threats hempty]
    have hselsub : ∀ j ∈ dalSelected ds threats,
        j ∈ (dalSorted ds threats).map (fun p => p.1) := by
      intro j hj
      unfold dalSelected at hj
      rw [assign_interceptors_csp_eq_take] at hj
      exact (List.take_sublist _ _).mem hj
    refine foldl_launch_matched (dalSorted ds threats) (dalSelected ds threats)
      (ds, threats) ?_ ?_ ?_ hmatch hinj
    · unfold dalSelected
      rw [assign_interceptors_csp_eq_take]
      exact (List.take_sublist _ _).nodup (dalSorted_fst_nodup ds threats)
    · intro j hj
      obtain ⟨p, hpmem, hp1⟩ := List.mem_map.mp (hselsub j hj)
      rcases hf : (dalSorted ds threats).find? (fun q => q.1 == j) with _ | p'
      · exfalso
        have hnone := List.find?_eq_none.mp hf p hpmem
        apply hnone
        rw [hp1]
        simp
      · exact ⟨p', hf⟩
    · intro j hj
      obtain ⟨p, hpmem, hp1⟩ := List.mem_map.mp (hselsub j hj)
      have hpdet : p ∈ detect_candidates ds threats := by
        have hperm : List.Perm (dalSorted ds threats)
            (detect_candidates ds threats) := List.mergeSort_perm _ _
        exact hperm.subset hpmem
      obtain ⟨t, ht, h1, h2, h3⟩ := detect_candidates_mem ds threats p hpdet
      rw [hp1] at ht
      exact ⟨t, ht, h1, h2, h3⟩

theorem record_misses_store (ds : DefenseSystem) : ∀ (ths : List Threat),
    ∀ (j : Nat), (record_misses ds ths).2[j]? = (ths[j]?).map (fun t =>
      if ¬t.destroyed ∧ ¬t.hit_ground ∧ t.position.z ≤ 0 then
        { t with hit_ground := true, targeted := false } else t) := by
  intro ths
  induction ths generalizing ds with
  | nil =>
    intro j
    simp [record_misses]
  | cons th ths ih =>
    intro j
    by_cases hc : ¬th.destroyed ∧ ¬th.hit_ground ∧ th.position.z ≤ 0
    · simp only [record_misses, if_pos hc]
      cases j with
      | zero =>
        rw [List.getElem?_cons_zero, List.getElem?_cons_zero]
        simp only [Option.map_some']
        rw [if_pos hc]
      | succ j =>
        rw [List.getElem?_cons_succ, List.getElem?_cons_succ]
        exact ih _ j
    · simp only [record_misses, if_neg hc]
      cases j with
      | zero =>
        rw [List.getElem?_cons_zero, List.getElem?_cons_zero]
        simp only [Option.map_some']
        rw [if_neg hc]
      | succ j =>
        rw [List.getElem?_cons_succ, List.getElem?_cons_succ]
        exact ih _ j

theorem record_misses_keeps_interceptors : ∀ (ths : List Threat)
    (ds : DefenseSystem),
    (record_misses ds ths).1.interceptors = ds.interceptors := by
  intro ths
  induction ths with
  | nil =>
    intro ds
    rfl
  | cons th ths ih =>
    intro ds
    by_cases hc : ¬th.destroyed ∧ ¬th.hit_ground ∧ th.position.z ≤ 0
    · simp only [record_misses, if_pos hc]
      rw [ih]
    · simp only [record_misses, if_neg hc]
      rw [ih]

theorem record_misses_matched (ths : List Threat) (ds : DefenseSystem)
    (hmatch : targetedMatched ds.interceptors ths) :
    targetedMatched (record_misses ds ths).1.interceptors
      (record_misses ds ths).2 := by
  rw [record_misses_keeps_interceptors]
  intro j t' hj hl
  rw [record_misses_store] at hj
  rcases ht : ths[j]? with _ | t
  · rw [ht] at hj
    cases hj
  · rw [ht] at hj
    simp only [Option.map_some'] at hj
    injection hj with hj
    by_cases hc : ¬t.destroyed ∧ ¬t.hit_ground ∧ t.position.z ≤ 0
    · rw [if_pos hc] at hj
      exfalso
      apply hl
      rw [← hj]
      exact Or.inr rfl
    · rw [if_neg hc] at hj
      subst hj
      exact hmatch j t ht hl

theorem targetedMatched_filter (itcs : List Interceptor) (ths : List Threat)
    (h : targetedMatched itcs ths) :
    targetedMatched (itcs.filter (fun i => !i.destroyed)) ths := by
  intro j t hj hl
  rw [h j t hj hl]
  constructor
  · rintro ⟨i, hi, hd, ht⟩
    refine ⟨i, List.mem_filter.mpr ⟨hi, ?_⟩, hd, ht⟩
    rw [hd]
    rfl
  · rintro ⟨i, hi, hd, ht⟩
    exact ⟨i, (List.mem_filter.mp hi).1, hd, ht⟩

theorem interceptor_update_expires (dt : ℝ) (i : Interceptor)
    (store : List Threat) (t : Threat) (hnd : i.destroyed = false)
    (hgt : i.elapsed + dt > i.lifetime) (ht : store[i.target]? = some t)
    (hlive : ¬t.destroyed ∧ ¬t.hit_ground) :
    Interceptor.update dt i store =
      ({ i with elapsed := i.elapsed + dt, destroyed := true },
        store.set i.target { t with targeted := false }) := by
  unfold Interceptor.update
  rw [if_neg (by simp [hnd]), if_pos hgt]
  simp only [ht]
  rw [if_pos hlive]

theorem c6_dist : ((⟨1000, 0, 100⟩ : Vector3D).sub
    (⟨0, 0, 100⟩ : Vector3D)).magnitude = 1000 := by
  unfold Vector3D.sub Vector3D.magnitude
  rw [show ((1000 : ℝ) - 0) ^ 2 + (0 - 0) ^ 2 + (100 - 100) ^ 2 = 1000 ^ 2 by
    norm_num]
  exact Real.sqrt_sq (by norm_num)

theorem c6_stepAll : stepAll 1 c6System.interceptors [c6Threat] =
    ([c6I1', c6I2'], [c6Threat']) := by
  show stepAll 1 [c6I1, c6I2] [c6Threat] = _
  unfold stepAll
  rw [interceptor_update_expires 1 c6I1 [c6Threat] c6Threat rfl
    (by unfold c6I1; norm_num) rfl (by simp [c6Threat])]
  simp only [stepAll]
  rw [interceptor_update_moves 1 c6I2 _ rfl (by unfold c6I2; norm_num)]
  unfold c6I1 c6I2 c6I1' c6I2' c6Threat c6Threat'
  norm_num [pushTrail, Vector3D.add, Vector3D.mul, Prod.ext_iff, List.set]

theorem c6_inner : collideInner c6Threat' [c6I1', c6I2'] =
    (c6Threat', [c6I1', c6I2'], 0, []) := by
  simp only [collideInner]
  rw [if_pos (show c6I1'.destroyed = true from rfl),
    if_neg (show ¬c6I2'.destroyed = true by simp [c6I2']),
    if_neg (show ¬(c6Threat'.position.sub c6I2'.position).magnitude < 200 by
      show ¬((⟨1000, 0, 100⟩ : Vector3D).sub
        (⟨0, 0, 100⟩ : Vector3D)).magnitude < 200
      rw [c6_dist]
      norm_num)]

theorem c6_outer : collideOuter [c6Threat'] [c6I1', c6I2'] =
    ([c6Threat'], [c6I1', c6I2'], 0, []) := by
  simp only [collideOuter]
  rw [if_neg (show ¬(c6Threat'.destroyed ∨ c6Threat'.hit_ground) by
    simp [c6Threat'])]
  simp only [c6_inner]
  rfl

theorem c6_update : DefenseSystem.update 1 c6System [c6Threat] =
    (⟨Vector3D.zero, 30000, 10000, 30, [c6I2'], [], 2, 0, 0⟩,
      [c6Threat']) := by
  unfold DefenseSystem.update
  rw [c6_stepAll]
  simp only [c6_outer]
  rfl

/-- C6 (amended).  The targeted-flag synchronization is a conditionally
preserved invariant, not an unconditional one: across one full controller
tick (`detect_and_launch`, then `DefenseSystem.update`, then
`record_misses`), if at the start of the tick every live threat's `targeted`
flag agrees with the existence of an active non-destroyed interceptor
targeting it, no two active interceptors share a target, and every collision
this tick happens between an interceptor and its own target (distances taken
after the phase-1 advance), then at the tick boundary every live threat's
`targeted` flag again agrees with the existence of an active interceptor
targeting it.  Without the two side conditions the biconditional can break —
see the counterexample. -/
theorem targeted_flag_tick_invariant (dt : ℝ) (ds : DefenseSystem)
    (threats : List Threat)
    (hmatch : targetedMatched ds.interceptors threats)
    (hinj : targetsInjective ds.interceptors)
    (hown : ∀ (j k : Nat) (t : Threat) (i : Interceptor),
      (stepAll dt (detect_and_launch ds threats).1.interceptors
        (detect_and_launch ds threats).2).2[j]? = some t →
      liveThreat t →
      (stepAll dt (detect_and_launch ds threats).1.interceptors
        (detect_and_launch ds threats).2).1[k]? = some i →
      i.destroyed = false →
      (t.position.sub i.position).magnitude < 200 → i.target = j) :
    targetedMatched
      (record_misses
        (DefenseSystem.update dt (detect_and_launch ds threats).1
          (detect_and_launch ds threats).2).1
        (DefenseSystem.update dt (detect_and_launch ds threats).1
          (detect_and_launch ds threats).2).2).1.interceptors
      (record_misses
        (DefenseSystem.update dt (detect_and_launch ds threats).1
          (detect_and_launch ds threats).2).1
        (DefenseSystem.update dt (detect_and_launch ds threats).1
          (detect_and_launch ds threats).2).2).2 := by
  obtain ⟨hm1, hi1⟩ := detect_and_launch_matched ds threats hmatch hinj
  obtain ⟨hm2, hi2⟩ := stepAll_matched dt
    (detect_and_launch ds threats).1.interceptors
    (detect_and_launch ds threats).2 hm1 hi1
  obtain ⟨hm3, _⟩ := collideOuter_matched
    (stepAll dt (detect_and_launch ds threats).1.interceptors
      (detect_and_launch ds threats).2).2
    (stepAll dt (detect_and_launch ds threats).1.interceptors
      (detect_and_launch ds threats).2).1 hm2 hi2 hown
  exact record_misses_matched _ _ (targetedMatched_filter _ _ hm3)

/-- Witness for C6 (amended): a concrete tick — one active interceptor, no
threats — where all three start-of-tick hypotheses hold, so the invariant is
preserved. -/
theorem targeted_flag_tick_invariant_witness :
    targetedMatched
      (record_misses
        (DefenseSystem.update 1 (detect_and_launch exSystem []).1
          (detect_and_launch exSystem []).2).1
        (DefenseSystem.update 1 (detect_and_launch exSystem []).1
          (detect_and_launch exSystem []).2).2).1.interceptors
      (record_misses
        (DefenseSystem.update 1 (detect_and_launch exSystem []).1
          (detect_and_launch exSystem []).2).1
        (DefenseSystem.update 1 (detect_and_launch exSystem []).1
          (detect_and_launch exSystem []).2).2).2 :=
  targeted_flag_tick_invariant 1 exSystem []
    (by
      intro j t hj _
      cases hj)
    (by
      intro k k' i i' hk hk' _ _ _
      have h1 : k = 0 := by
        simpa [exSystem] using (List.getElem?_eq_some_iff.mp hk).1
      have h2 : k' = 0 := by
        simpa [exSystem] using (List.getElem?_eq_some_iff.mp hk').1
      omega)
    (by
      intro j k t i hj _ _ _ _
      rw [show detect_and_launch exSystem [] = (exSystem, []) from rfl] at hj
      rw [stepAll_snd] at hj
      simp at hj)

/-- C6 counterexample: the unconditional tick-boundary biconditional of the
claim is false.  Starting from a reachable state in which two interceptors
target the same live threat (reachable because `manual_intercept` never
checks `targeted`), the first interceptor's lifetime expires during the tick
and clears the threat's `targeted` flag while the second interceptor is
still active and targeting it: at the tick boundary the threat is live and
untargeted, yet an active non-destroyed interceptor holds it as target, so
the claimed iff fails. -/
theorem targeted_flag_counterexample :
    ¬targetedMatched
        (record_misses
          (DefenseSystem.update 1 (detect_and_launch c6System [c6Threat]).1
            (detect_and_launch c6System [c6Threat]).2).1
          (DefenseSystem.update 1 (detect_and_launch c6System [c6Threat]).1
            (detect_and_launch c6System [c6Threat]).2).2).1.interceptors
        (record_misses
          (DefenseSystem.update 1 (detect_and_launch c6System [c6Threat]).1
            (detect_and_launch c6System [c6Threat]).2).1
          (DefenseSystem.update 1 (detect_and_launch c6System [c6Threat]).1
            (detect_and_launch c6System [c6Threat]).2).2).2 := by
  intro hm
  simp only [show detect_and_launch c6System [c6Threat] =
    (c6System, [c6Threat]) from rfl] at hm
  rw [c6_update] at hm
  have hstore : (record_misses
      (⟨Vector3D.zero, 30000, 10000, 30, [c6I2'], [], 2, 0, 0⟩ :
        DefenseSystem) [c6Threat']).2[0]? = some c6Threat' := by
    rw [record_misses_store]
    rw [show ([c6Threat'] : List Threat)[0]? = some c6Threat' from rfl]
    simp only [Option.map_some']
    rw [if_neg (by
      rintro ⟨-, -, hz⟩
      have h : (100 : ℝ) ≤ 0 := hz
      norm_num at h)]
  have hlive : liveThreat c6Threat' := by simp [liveThreat, c6Threat']
  have hiff := hm 0 c6Threat' hstore hlive
  have hr := hiff.mpr ⟨c6I2', by
    rw [record_misses_keeps_interceptors]
    exact List.mem_cons_self _ _, rfl, rfl⟩
  have hfalse : (false : Bool) = true := hr
  cases hfalse

end

